import Mathlib

/-
  A verification development for the abstract-enrichment pipeline of
  scripts/fetch_papers.py (class DBLPFetcher) together with the constants it
  reads from scripts/config.py.

  Modelling conventions:
  * Python dict-shaped paper records are modelled by the fixed-shape `Paper`
    record; a key that is absent from the dict behaves under `paper.get` like
    a key bound to `None`, so both are represented by `none` (the
    None-initialisation loop at the top of `enrich_papers_with_abstracts` is
    therefore the identity here and is not repeated).
  * Python truthiness on optional strings (`if x:` / `not x`) is `truthyS`:
    `None` and the empty string are falsy, everything else truthy.
  * HTTP requests and JSON/HTML payload extraction are abstracted as oracle
    functions collected in the `Net` structure; `Response` distinguishes a
    parsed 2xx payload, an HTTPError raised by raise_for_status (with status
    code), and every other exception (timeout, connection error, bad payload).
    All control flow around those calls (guards, except-branches, truthiness
    checks, field assembly) is translated from the source.
-/

/-- Python truthiness of an optional string: `None` and `""` are falsy. -/
def truthyS : Option String → Bool
  | none => false
  | some s => s != ""

/-- Outcome of one HTTP request as seen by the calling code:
`ok` carries the values extracted from the parsed payload, `httpError s`
models `raise_for_status` raising `requests.exceptions.HTTPError` with
status code `s`, and `netError` models every other exception
(timeout, connection failure, malformed payload). -/
inductive Response (α : Type) where
  | ok (payload : α)
  | httpError (status : Nat)
  | netError

/-! ### String helpers mirroring the Python `str` methods used by the code -/

/-- Characters stripped by Python `str.strip()` (ASCII whitespace suffices for
the DOI strings this code handles). -/
def isPyStripSpace (c : Char) : Bool :=
  c == ' ' || c == '\t' || c == '\n' || c == '\r'

/-- `str.strip()` on a character list: drop whitespace from both ends. -/
def stripChars (l : List Char) : List Char :=
  ((l.dropWhile isPyStripSpace).reverse.dropWhile isPyStripSpace).reverse

/-- The resolver prefix removed from DOI fields:
`'https://doi.org/'`. -/
def doiResolverChars : List Char := "https://doi.org/".data

/-- Helper for `dropDoiResolver`: while `skip > 0` we are inside an already
matched occurrence and discard characters; at `skip = 0` we test for a match
at the current position (structural recursion, so the kernel can evaluate
it). -/
def dropDoiResolverAux : Nat → List Char → List Char
  | _, [] => []
  | Nat.succ n, _ :: rest => dropDoiResolverAux n rest
  | 0, c :: rest =>
    if doiResolverChars.isPrefixOf (c :: rest) then
      dropDoiResolverAux (doiResolverChars.length - 1) rest
    else
      c :: dropDoiResolverAux 0 rest

/-- `s.replace('https://doi.org/', '')`: remove every (non-overlapping,
left-to-right) occurrence of the resolver string, as Python `str.replace`
does. -/
def dropDoiResolver (l : List Char) : List Char :=
  dropDoiResolverAux 0 l

/-- `doi.replace('https://doi.org/', '').strip().lower()` — the DOI
normalisation used when building the OpenAlex batch (fetch_papers.py lines
487 and 852).  Python `str.lower()` is modelled by `Char.toLower`, which
agrees with it on the ASCII strings DOIs are made of. -/
def normalize_doi (d : Option String) : String :=
  String.mk (((stripChars (dropDoiResolver (d.getD "").data))).map Char.toLower)

/-- `doi.replace('https://doi.org/', '').strip()` — the variant used by the
Semantic Scholar tier (fetch_papers.py line 919), which does NOT lowercase. -/
def normalize_doi_s2 (d : Option String) : String :=
  String.mk (stripChars (dropDoiResolver (d.getD "").data))

/-! ### reconstruct_abstract_from_inverted_index (fetch_papers.py 311-335)

The OpenAlex inverted index (a Python dict mapping word to position list) is
represented as an association list in the dict's iteration order; the
(position, word) pair list, the stable sort by position (Python `list.sort`
with `key=lambda x: x[0]` is stable; a stable insertion sort produces the
identical output), and the single-space join are translated directly. -/

/-- The `(position, word)` pair list built from the inverted index, in the
index's iteration order (outer loop over entries, inner loop over the
position list of each entry). -/
def word_positions : List (String × List Nat) → List (Nat × String)
  | [] => []
  | (w, ps) :: rest => ps.map (fun pos => (pos, w)) ++ word_positions rest

/-- Insert one pair into a position-sorted pair list, before the first
strictly greater position (so that, like Python's stable sort, pairs with
equal positions keep their original relative order). -/
def insertByPos (x : Nat × String) : List (Nat × String) → List (Nat × String)
  | [] => [x]
  | y :: ys => if x.1 ≤ y.1 then x :: y :: ys else y :: insertByPos x ys

/-- Stable sort of the pair list by position (`word_positions.sort(key=lambda
x: x[0])`). -/
def sortByPos : List (Nat × String) → List (Nat × String)
  | [] => []
  | x :: xs => insertByPos x (sortByPos xs)

/-- `reconstruct_abstract_from_inverted_index`: `None` for an empty (falsy)
index, otherwise the words of all pairs sorted by position, joined with
single spaces. -/
def reconstruct_abstract_from_inverted_index
    (inv_index : List (String × List Nat)) : Option String :=
  if inv_index = [] then none
  else some (String.intercalate " "
    ((sortByPos (word_positions inv_index)).map Prod.snd))

/-! ### _extract_hash_from_proceedings_url (fetch_papers.py 642-675)

`re.search` with the two fixed-shape patterns is translated as a left-to-right
scan over the character list; at each position the pattern pieces (the literal
`/hash/`, exactly 32 lowercase-hex characters, the literal `-Abstract-` or
`-Abstract`, and the ordered track alternatives) are matched directly.  The
patterns contain no constructs that backtrack, so this scan computes exactly
the regex's leftmost match. -/

/-- `[a-f0-9]`. -/
def isHexLower (c : Char) : Bool :=
  (('a' ≤ c) && (c ≤ 'f')) || (('0' ≤ c) && (c ≤ '9'))

/-- The literal `/hash/` that anchors both patterns. -/
def hashMarker : List Char := "/hash/".data

/-- Try the first pattern
`/hash/([a-f0-9]{32})-Abstract-(Conference|Datasets_and_Benchmarks)`
anchored at the head of `l`, returning the two groups. -/
def matchPat1At (l : List Char) : Option (String × String) :=
  if hashMarker.isPrefixOf l then
    let rest := l.drop 6
    let hex := rest.take 32
    let rest2 := rest.drop 32
    if hex.length == 32 && hex.all isHexLower
        && ("-Abstract-".data).isPrefixOf rest2 then
      let rest3 := rest2.drop 10
      if ("Conference".data).isPrefixOf rest3 then
        some (String.mk hex, "Conference")
      else if ("Datasets_and_Benchmarks".data).isPrefixOf rest3 then
        some (String.mk hex, "Datasets_and_Benchmarks")
      else none
    else none
  else none

/-- Try the fallback pattern `/hash/([a-f0-9]{32})-Abstract` anchored at the
head of `l`. -/
def matchPat2At (l : List Char) : Option String :=
  if hashMarker.isPrefixOf l then
    let rest := l.drop 6
    let hex := rest.take 32
    if hex.length == 32 && hex.all isHexLower
        && ("-Abstract".data).isPrefixOf (rest.drop 32) then
      some (String.mk hex)
    else none
  else none

/-- `re.search` for the first pattern: leftmost position where it matches. -/
def searchPat1 (l : List Char) : Option (String × String) :=
  match matchPat1At l with
  | some r => some r
  | none =>
    match l with
    | [] => none
    | _ :: rest => searchPat1 rest

/-- `re.search` for the fallback pattern. -/
def searchPat2 (l : List Char) : Option String :=
  match matchPat2At l with
  | some r => some r
  | none =>
    match l with
    | [] => none
    | _ :: rest => searchPat2 rest

/-- `_extract_hash_from_proceedings_url` (the Python name carries a leading
underscore): first pattern wins; the fallback pattern defaults the track to
`"Conference"`; otherwise `(None, None)`. -/
def extract_hash_from_proceedings_url (url : String) :
    Option String × Option String :=
  match searchPat1 url.data with
  | some (h, t) => (some h, some t)
  | none =>
    match searchPat2 url.data with
    | some h => (some h, some "Conference")
    | none => (none, none)

example : extract_hash_from_proceedings_url
    "http://papers.nips.cc/paper_files/paper/2022/hash/002262941c9edfd472a79298b2ac5e17-Abstract-Conference.html"
    = (some "002262941c9edfd472a79298b2ac5e17", some "Conference") := by decide

example : extract_hash_from_proceedings_url
    "https://proceedings.neurips.cc/paper/2020/hash/0004d0b59e19461ff126e3a08a814c33-Abstract.html"
    = (some "0004d0b59e19461ff126e3a08a814c33", some "Conference") := by decide

example : normalize_doi (some " https://doi.org/10.1/B ") = "10.1/b" := by decide

example : reconstruct_abstract_from_inverted_index
    [("deep", [0]), ("learning", [1]), ("models", [2])]
    = some "deep learning models" := by decide

/-! ### Configuration constants (scripts/config.py) -/

def OPENREVIEW_SEARCH_ENABLED : Bool := true

/-- Keys of `config.OPENREVIEW_VENUES`. -/
def OPENREVIEW_VENUES : List String := ["iclr", "icml"]

def NEURIPS_PROCEEDINGS_BASE_URL : String := "https://proceedings.nips.cc"

def OPENALEX_BATCH_SIZE : Nat := 100

/-! ### Data model -/

/-- One paper record as produced by `_parse_dblp_html` and enriched by
`enrich_papers_with_abstracts`.  Optional dict keys (and keys bound to
`None` or, for the string keys the parser initialises to `''`, to a falsy
value) are `Option`-valued; `truthyS` reproduces the `paper.get(...)`
truthiness tests.  `authors`, `venue` and `url` are never read by the
enrichment pipeline and are omitted. -/
structure Paper where
  title : Option String
  year : Int
  doi : Option String
  openreview_id : Option String
  neurips_proceedings_url : Option String
  abstract : Option String
  citation_count : Option Int
  abstract_source : Option String
  source_id : Option String
deriving Repr, DecidableEq

/-- An OpenReview `content` abstract field after the
`abstract or TL;DR or tldr` chain: either a plain string or an object with a
`value` key (unwrapped one level by the code). -/
inductive ORVal where
  | plain (s : String)
  | valueObj (s : String)
deriving Repr, DecidableEq

/-- Unwrap: `if isinstance(abstract, dict) and 'value' in abstract:
abstract = abstract['value']`. -/
def ORVal.unwrap : ORVal → String
  | ORVal.plain s => s
  | ORVal.valueObj s => s

/-- One work object in an OpenAlex response, reduced to the three fields the
code reads: `abstract_inverted_index` (a dict, `none` when the JSON value is
null/absent), `cited_by_count` (defaulted to 0 by `work.get`), and `id` with
the `https://openalex.org/` prefix already removed. -/
structure OpenAlexWork where
  invIndex : Option (List (String × List Nat))
  citedByCount : Int
  workId : String
deriving Repr, DecidableEq

/-- The Semantic Scholar JSON payload fields the code reads: `abstract`,
`citationCount` (the value of `data.get("citationCount", 0)`: 0 when absent,
`none` when explicitly null), `paperId`. -/
structure SSPayload where
  abstract : Option String
  citationCount : Option Int
  paperId : Option String
deriving Repr, DecidableEq

/-- The external world: one deterministic oracle per request shape.

* `openreviewSearchNotes title year venue`: the forum id extracted from the
  first note of a `/notes` title search (`notes[0].get('id') or
  notes[0].get('forum')`), `none` when there are no notes or both fields are
  falsy; the year selects the API version and the venue the invitation, so
  both key the oracle.
* `openreviewNotes forum_id year`: the abstract field of the first note of
  `GET /notes?id=forum_id` after the `abstract or TL;DR or tldr` chain.
* `openalexWork doi`: the work matched for one (normalized) DOI of a batch
  `filter=doi:...` query.  The service resolves each DOI independently of the
  rest of the batch, so the batch response is modelled per DOI; batch-level
  transport errors are modelled separately in `fetch_abstracts_openalex`.
* `openalexTitleSearch title`: `results[0]` of a `filter=title.search` query
  with `per-page=1`, `none` when `results` is empty.
* `semanticScholar doi`: the response for `GET .../paper/DOI:doi`.
* `neuripsPage url`: the abstract text located in the fetched page by the
  h4-"Abstract" / following-paragraph (one level of nesting unwrapped) rule,
  `none` when the page has no such elements. -/
structure Net where
  openreviewSearchNotes : String → Int → String → Response (Option String)
  openreviewNotes : String → Int → Response (Option ORVal)
  openalexWork : String → Option OpenAlexWork
  openalexTitleSearch : String → Response (Option OpenAlexWork)
  semanticScholar : String → Response SSPayload
  neuripsPage : String → Response (Option String)

/-! ### Source clients (fetch_papers.py 358-732) -/

/-- `search_openreview_by_title` (lines 358-410): gated on the search flag, a
truthy title and a configured venue; every exception path returns `None`; a
falsy forum id in the response is also `None`. -/
def search_openreview_by_title (net : Net) (title : Option String)
    (year : Int) (venue : String) : Option String :=
  if !OPENREVIEW_SEARCH_ENABLED || !truthyS title
      || !(OPENREVIEW_VENUES.contains venue) then none
  else
    match net.openreviewSearchNotes (title.getD "") year venue with
    | Response.ok fid => if truthyS fid then fid else none
    | Response.httpError _ => none
    | Response.netError => none

/-- `fetch_abstract_openreview` (lines 412-470): `(abstract, citation_count,
forum_id)`; OpenReview never supplies citation counts; a 404 and every other
error alike produce the fully-null triple; the `venue` parameter is unused in
the source as well. -/
def fetch_abstract_openreview (net : Net) (forum_id : Option String)
    (year : Int) (venue : String) :
    Option String × Option Int × Option String :=
  if !truthyS forum_id then (none, none, none)
  else
    match net.openreviewNotes (forum_id.getD "") year with
    | Response.ok payload => (payload.map ORVal.unwrap, none, forum_id)
    | Response.httpError _ => (none, none, none)
    | Response.netError => (none, none, none)

/-- The abstract the code derives from one OpenAlex work:
`if inv_index: reconstruct(...) else None` (an empty dict is falsy). -/
def openalexAbstractOfWork (w : OpenAlexWork) : Option String :=
  match w.invIndex with
  | some idx =>
    if idx ≠ [] then reconstruct_abstract_from_inverted_index idx else none
  | none => none

/-- The `(abstract, citation_count, openalex_id)` entry the code stores in
the `abstracts` dict for one matched work (lines 527-537). -/
def openalexEntryOfWork (w : OpenAlexWork) :
    Option String × Option Int × Option String :=
  (openalexAbstractOfWork w, some w.citedByCount, some w.workId)

/-- `fetch_abstract_openalex_by_title` (lines 590-640): short titles are
skipped; an empty result list and every exception produce the fully-null
triple. -/
def fetch_abstract_openalex_by_title (net : Net) (title : String) :
    Option String × Option Int × Option String :=
  if title == "" || title.length < 10 then (none, none, none)
  else
    match net.openalexTitleSearch title with
    | Response.ok (some w) => openalexEntryOfWork w
    | Response.ok none => (none, none, none)
    | Response.httpError _ => (none, none, none)
    | Response.netError => (none, none, none)

/-- `fetch_abstract_semantic_scholar` (lines 549-588): a 404 means "paper not
found" and yields the fully-null triple; every other HTTP error and every
other exception is caught, logged, and yields the very same fully-null
triple — there is no retry and no distinct error value. -/
def fetch_abstract_semantic_scholar (net : Net) (doi : String) :
    Option String × Option Int × Option String :=
  if doi == "" then (none, none, none)
  else
    match net.semanticScholar doi with
    | Response.ok payload =>
      (payload.abstract, payload.citationCount, payload.paperId)
    | Response.httpError 404 => (none, none, none)
    | Response.httpError _ => (none, none, none)
    | Response.netError => (none, none, none)

/-- The request URL built by `fetch_neurips_proceedings_abstract` (line 699):
no track suffix, just `-Abstract.html`. -/
def neurips_url (year : Int) (paper_hash : String) : String :=
  NEURIPS_PROCEEDINGS_BASE_URL ++ "/paper/" ++ toString year ++ "/hash/"
    ++ paper_hash ++ "-Abstract.html"

/-- `fetch_neurips_proceedings_abstract` (lines 677-732): the `track`
parameter is deprecated and never read; on success the triple is
`(abstract, None, url)` — the proceedings site supplies no citation count;
404 and every other error produce the fully-null triple. -/
def fetch_neurips_proceedings_abstract (net : Net) (year : Int)
    (paper_hash : String) (track : Option String) :
    Option String × Option Int × Option String :=
  if paper_hash == "" then (none, none, none)
  else
    let url := neurips_url year paper_hash
    match net.neuripsPage url with
    | Response.ok payload =>
      if truthyS payload then (payload, none, some url) else (none, none, none)
    | Response.httpError _ => (none, none, none)
    | Response.netError => (none, none, none)

/-! ### fetch_abstracts_openalex at the batch level (lines 472-547)

Used by the error-handling analysis: the DOI extraction and batching are
translated literally, and the whole batch response (including transport
errors) is an oracle over the batch's DOI list.  A failed batch is logged and
skipped — the loop moves to the next batch with no retry — so its entries are
simply absent from the returned dict. -/

/-- Lines 485-489: the normalized, non-empty DOIs of the papers, in order. -/
def extract_dois (papers : List Paper) : List String :=
  papers.filterMap (fun p =>
    let d := normalize_doi p.doi
    if d != "" then some d else none)

/-- Slice a list into consecutive batches of `OPENALEX_BATCH_SIZE`. -/
def batchesOf : List String → List (List String)
  | [] => []
  | d :: rest =>
    (d :: rest.take (OPENALEX_BATCH_SIZE - 1))
      :: batchesOf (rest.drop (OPENALEX_BATCH_SIZE - 1))
termination_by l => l.length
decreasing_by
  simp only [List.length_drop, List.length_cons]
  omega

/-- `fetch_abstracts_openalex`: the returned dict maps each DOI of a
successfully fetched batch that matched a work to its
`(abstract, citation_count, openalex_id)` entry; the work returned for a
queried DOI carries that DOI (normalized) as its key.  A batch whose request
raises is skipped (`except ... continue to next batch`, no retry). -/
def fetch_abstracts_openalex
    (resp : List String → Response (List (String × OpenAlexWork)))
    (papers : List Paper) :
    List (String × (Option String × Option Int × Option String)) :=
  (batchesOf (extract_dois papers)).foldl
    (fun acc batch =>
      match resp batch with
      | Response.ok works =>
        acc ++ works.map (fun dw => (dw.1, openalexEntryOfWork dw.2))
      | Response.httpError _ => acc
      | Response.netError => acc)
    []

/-! ### enrich_papers_with_abstracts (fetch_papers.py 734-1051)

Each tier iterates over a filtered working set and mutates matching papers in
place; over the full collection this is a map that applies the tier's action
to papers satisfying the working-set predicate and leaves the rest untouched.
An empty working set makes the tier a no-op in the source (the surrounding
`if` only skips logging), which the unconditional map reproduces.  The
recovery-mode check (lines 765-770) only emits a log line, returned here as
the second component. -/

/-- Working-set predicate of the tier-0 id search (line 776):
`not p.get('openreview_id') and not p.get('abstract')`. -/
def tier0_pred (p : Paper) : Bool :=
  !truthyS p.openreview_id && !truthyS p.abstract

/-- Working-set predicate of the OpenReview tier (line 800):
`p.get('openreview_id') and not p.get('abstract')`. -/
def tier1_pred (p : Paper) : Bool :=
  truthyS p.openreview_id && !truthyS p.abstract

/-- Working-set predicate of the OpenAlex batch tier (line 840):
`p.get('doi') and not p.get('abstract')`. -/
def tier2_pred (p : Paper) : Bool :=
  truthyS p.doi && !truthyS p.abstract

/-- Working-set predicate of the OpenAlex title-search tier (line 873):
`p['abstract'] is None and p.get('title')`. -/
def tier3_pred (p : Paper) : Bool :=
  p.abstract == none && truthyS p.title

/-- Working-set predicate of the Semantic Scholar tier (line 910):
`p['abstract'] is None and p.get('doi')`. -/
def tier4_pred (p : Paper) : Bool :=
  p.abstract == none && truthyS p.doi

/-- Working-set predicate of the NeurIPS proceedings tier (line 947):
`p['abstract'] is None and p.get('neurips_proceedings_url')`. -/
def tier5_pred (p : Paper) : Bool :=
  p.abstract == none && truthyS p.neurips_proceedings_url

def tier0_working_set (ps : List Paper) : List Paper := ps.filter tier0_pred

def tier1_working_set (ps : List Paper) : List Paper := ps.filter tier1_pred

def tier2_working_set (ps : List Paper) : List Paper := ps.filter tier2_pred

def tier3_working_set (ps : List Paper) : List Paper := ps.filter tier3_pred

def tier4_working_set (ps : List Paper) : List Paper := ps.filter tier4_pred

def tier5_working_set (ps : List Paper) : List Paper := ps.filter tier5_pred

/-- The in-place success mutation shared by all abstract tiers: set
`abstract`, `citation_count`, `abstract_source`, `source_id` together. -/
def enrich_fields (p : Paper) (a : Option String) (cc : Option Int)
    (sid : Option String) (tag : String) : Paper :=
  { p with abstract := a, citation_count := cc,
           abstract_source := some tag, source_id := sid }

/-- Tier 0 (lines 772-797): search OpenReview by title for papers missing a
forum id; store the id if found (`if forum_id:` — the search result is
already truthy or `None`). -/
def tier0_step (net : Net) (venue : String) (p : Paper) : Paper :=
  if tier0_pred p then
    match search_openreview_by_title net p.title p.year venue with
    | some fid => { p with openreview_id := some fid }
    | none => p
  else p

/-- Tier 0 runs only for venues configured in `OPENREVIEW_VENUES`
(line 774). -/
def tier0_gate (net : Net) (venue : String) (p : Paper) : Paper :=
  if OPENREVIEW_VENUES.contains venue then tier0_step net venue p else p

/-- Tier 1 (lines 799-837): OpenReview direct fetch; mutate only when the
returned abstract is truthy (`if abstract:`). -/
def tier1_step (net : Net) (venue : String) (p : Paper) : Paper :=
  if tier1_pred p then
    let r := fetch_abstract_openreview net p.openreview_id p.year venue
    if truthyS r.1 then enrich_fields p r.1 r.2.1 r.2.2 "openreview" else p
  else p

/-- The `abstracts` dict of the OpenAlex batch tier, keyed by normalized DOI
(the batch response is per-DOI deterministic, see `Net.openalexWork`). -/
def openalexDict (net : Net) (ws : List Paper) :
    List (String × (Option String × Option Int × Option String)) :=
  (extract_dois ws).filterMap
    (fun d => (net.openalexWork d).map (fun w => (d, openalexEntryOfWork w)))

/-- The merge loop of tier 2 (lines 849-860) for one paper: re-normalize the
paper's DOI, look it up in the dict, mutate on a truthy abstract. -/
def tier2_step
    (dict : List (String × (Option String × Option Int × Option String)))
    (p : Paper) : Paper :=
  if tier2_pred p then
    match dict.lookup (normalize_doi p.doi) with
    | some r =>
      if truthyS r.1 then enrich_fields p r.1 r.2.1 r.2.2 "openalex" else p
    | none => p
  else p

/-- Tier 2 (lines 839-868): build the dict from the working set, then merge
into every working-set paper. -/
def tier2_run (net : Net) (ps : List Paper) : List Paper :=
  ps.map (tier2_step (openalexDict net (tier2_working_set ps)))

/-- Tier 3 (lines 870-906): OpenAlex title search. -/
def tier3_step (net : Net) (p : Paper) : Paper :=
  if tier3_pred p then
    let r := fetch_abstract_openalex_by_title net (p.title.getD "")
    if truthyS r.1 then enrich_fields p r.1 r.2.1 r.2.2 "openalex_title" else p
  else p

/-- Tier 4 (lines 908-942): Semantic Scholar by (strip-only normalized)
DOI. -/
def tier4_step (net : Net) (p : Paper) : Paper :=
  if tier4_pred p then
    let r := fetch_abstract_semantic_scholar net (normalize_doi_s2 p.doi)
    if truthyS r.1 then enrich_fields p r.1 r.2.1 r.2.2 "semantic_scholar"
    else p
  else p

/-- Tier 5 (lines 944-1024): extract hash and track from the proceedings URL
(`if paper_hash and track:`), fetch, mutate on a truthy abstract. -/
def tier5_step (net : Net) (p : Paper) : Paper :=
  if tier5_pred p then
    match extract_hash_from_proceedings_url (p.neurips_proceedings_url.getD "")
      with
    | (some h, some tr) =>
      if h != "" && tr != "" then
        let r := fetch_neurips_proceedings_abstract net p.year h (some tr)
        if truthyS r.1 then
          enrich_fields p r.1 r.2.1 r.2.2 "neurips_proceedings"
        else p
      else p
    | (some _, none) => p
    | (none, _) => p
  else p

/-- Tier 5 runs only when the venue is `'neurips'` (line 946). -/
def tier5_gate (net : Net) (venue : String) (p : Paper) : Paper :=
  if venue == "neurips" then tier5_step net p else p

/-- `enrich_papers_with_abstracts`: the six tiers in their fixed order.
The second component is the progress log, restricted to the single line
whose emission is conditioned on `config.ENABLE_RECOVERY_MODE`
(lines 765-770); all other logging is unconditional on that flag and is not
modelled. -/
def enrich_papers_with_abstracts (net : Net) (venue : String)
    (recoveryMode : Bool) (papers : List Paper) : List Paper × List String :=
  let existing := (papers.filter (fun p => truthyS p.abstract)).length
  let log : List String :=
    if recoveryMode && existing > 0 then
      ["Recovery mode: papers already have abstracts"]
    else []
  let ps1 := papers.map (tier0_gate net venue)
  let ps2 := ps1.map (tier1_step net venue)
  let ps3 := tier2_run net ps2
  let ps4 := ps3.map (tier3_step net)
  let ps5 := ps4.map (tier4_step net)
  let ps6 := ps5.map (tier5_gate net venue)
  (ps6, log)

/-- The coverage statistics computed at lines 1026-1033: totals and the
per-source breakdown (`p.get('abstract')` truthiness for the abstract count,
equality with the tag string for the breakdown). -/
structure CoverageStats where
  total : Nat
  withAbstract : Nat
  fromOpenreview : Nat
  fromOpenalex : Nat
  fromOpenalexTitle : Nat
  fromSemanticScholar : Nat
  fromNeuripsProceedings : Nat
deriving Repr, DecidableEq

def coverage_stats (ps : List Paper) : CoverageStats where
  total := ps.length
  withAbstract := (ps.filter (fun p => truthyS p.abstract)).length
  fromOpenreview :=
    (ps.filter (fun p => p.abstract_source == some "openreview")).length
  fromOpenalex :=
    (ps.filter (fun p => p.abstract_source == some "openalex")).length
  fromOpenalexTitle :=
    (ps.filter (fun p => p.abstract_source == some "openalex_title")).length
  fromSemanticScholar :=
    (ps.filter (fun p => p.abstract_source == some "semantic_scholar")).length
  fromNeuripsProceedings :=
    (ps.filter (fun p =>
      p.abstract_source == some "neurips_proceedings")).length

/-! ### Proof infrastructure: the pipeline as a per-paper map -/

theorem enrich_fields_abstract (p : Paper) (a : Option String) (cc : Option Int)
    (sid : Option String) (tag : String) :
    (enrich_fields p a cc sid tag).abstract = a := rfl

theorem enrich_fields_source (p : Paper) (a : Option String) (cc : Option Int)
    (sid : Option String) (tag : String) :
    (enrich_fields p a cc sid tag).abstract_source = some tag := rfl

theorem enrich_fields_openreview_id (p : Paper) (a : Option String)
    (cc : Option Int) (sid : Option String) (tag : String) :
    (enrich_fields p a cc sid tag).openreview_id = p.openreview_id := rfl

theorem truthy_ne_none {o : Option String} (h : truthyS o = true) : o ≠ none := by
  cases o with
  | none => simp [truthyS] at h
  | some s => simp

theorem truthy_some {s : String} : truthyS (some s) = (s != "") := rfl

/-- Per-paper form of the OpenAlex tier (used to decompose `tier2_run` into a
map): the dict lookup for a working-set paper resolves to the oracle's entry
for its own normalized DOI. -/
def tier2_pstep (net : Net) (p : Paper) : Paper :=
  if tier2_pred p then
    let nd := normalize_doi p.doi
    if nd != "" then
      match net.openalexWork nd with
      | some w =>
        let r := openalexEntryOfWork w
        if truthyS r.1 then enrich_fields p r.1 r.2.1 r.2.2 "openalex" else p
      | none => p
    else p
  else p

theorem mem_extract_dois_ne_empty {ps : List Paper} {d : String}
    (h : d ∈ extract_dois ps) : d ≠ "" := by
  unfold extract_dois at h
  rw [List.mem_filterMap] at h
  obtain ⟨p, _, hp⟩ := h
  by_cases hd : normalize_doi p.doi = "" <;> simp [hd] at hp
  exact hp ▸ hd

theorem lookup_keyed (g : String → Option OpenAlexWork) (ds : List String)
    (d : String) :
    (ds.filterMap
      (fun x => (g x).map (fun w => (x, openalexEntryOfWork w)))).lookup d
    = if d ∈ ds then (g d).map openalexEntryOfWork else none := by
  induction ds with
  | nil => simp
  | cons x ds ih =>
    by_cases hdx : d = x
    · subst hdx
      cases hgx : g d with
      | none => simp [hgx, ih]
      | some w => simp [hgx, List.lookup_cons]
    · cases hgx : g x with
      | none =>
        simp only [List.filterMap_cons, hgx, Option.map_none']
        rw [ih]
        simp [List.mem_cons, hdx]
      | some w =>
        simp only [List.filterMap_cons, hgx, Option.map_some']
        rw [List.lookup_cons]
        have : (d == x) = false := by simp [hdx]
        simp only [this]
        rw [ih]
        simp [List.mem_cons, hdx]

theorem tier2_run_eq (net : Net) (ps : List Paper) :
    tier2_run net ps = ps.map (tier2_pstep net) := by
  unfold tier2_run
  apply List.map_congr_left
  intro p hp
  by_cases h2 : tier2_pred p
  · unfold tier2_step tier2_pstep openalexDict
    by_cases hnd : normalize_doi p.doi = ""
    · have hnot : ¬ (normalize_doi p.doi ∈ extract_dois (tier2_working_set ps))
        := fun hmem => (mem_extract_dois_ne_empty hmem) hnd
      rw [hnd] at hnot
      rw [lookup_keyed]
      simp [h2, hnd, hnot]
    · have hmem : normalize_doi p.doi ∈ extract_dois (tier2_working_set ps) := by
        unfold extract_dois tier2_working_set
        rw [List.mem_filterMap]
        exact ⟨p, List.mem_filter.mpr ⟨hp, h2⟩, by simp [hnd]⟩
      rw [lookup_keyed]
      simp only [hmem, if_pos]
      cases hw : net.openalexWork (normalize_doi p.doi) with
      | none => simp [h2, hnd]
      | some w => simp [h2, hnd]
  · unfold tier2_step tier2_pstep
    simp [h2]

/-- The whole pipeline as one per-paper function: the tiers touch each paper
independently, so the collection result is a map of this composite. -/
def enrich_paper (net : Net) (venue : String) (p : Paper) : Paper :=
  tier5_gate net venue (tier4_step net (tier3_step net (tier2_pstep net
    (tier1_step net venue (tier0_gate net venue p)))))

theorem enrich_eq_map (net : Net) (venue : String) (r : Bool)
    (ps : List Paper) :
    (enrich_papers_with_abstracts net venue r ps).1
      = ps.map (enrich_paper net venue) := by
  unfold enrich_papers_with_abstracts
  simp only [tier2_run_eq, List.map_map]
  rfl

/-! ### Frozen lemmas: a paper with a truthy abstract passes every tier
unchanged (every working-set predicate requires a falsy or null abstract) -/

theorem tier0_step_frozen {net : Net} {venue : String} {q : Paper}
    (h : truthyS q.abstract = true) : tier0_step net venue q = q := by
  unfold tier0_step tier0_pred
  simp [h]

theorem tier0_gate_frozen {net : Net} {venue : String} {q : Paper}
    (h : truthyS q.abstract = true) : tier0_gate net venue q = q := by
  unfold tier0_gate
  by_cases hv : OPENREVIEW_VENUES.contains venue = true
  · rw [if_pos hv]
    exact tier0_step_frozen h
  · rw [if_neg hv]

theorem tier1_step_frozen {net : Net} {venue : String} {q : Paper}
    (h : truthyS q.abstract = true) : tier1_step net venue q = q := by
  unfold tier1_step tier1_pred
  simp [h]

theorem tier2_pstep_frozen {net : Net} {q : Paper}
    (h : truthyS q.abstract = true) : tier2_pstep net q = q := by
  unfold tier2_pstep tier2_pred
  simp [h]

theorem abstract_beq_none_of_truthy {q : Paper}
    (h : truthyS q.abstract = true) : (q.abstract == none) = false := by
  cases ho : q.abstract with
  | none => rw [ho] at h; simp [truthyS] at h
  | some s => rfl

theorem tier3_step_frozen {net : Net} {q : Paper}
    (h : truthyS q.abstract = true) : tier3_step net q = q := by
  unfold tier3_step tier3_pred
  simp [abstract_beq_none_of_truthy h]

theorem tier4_step_frozen {net : Net} {q : Paper}
    (h : truthyS q.abstract = true) : tier4_step net q = q := by
  unfold tier4_step tier4_pred
  simp [abstract_beq_none_of_truthy h]

theorem tier5_step_frozen {net : Net} {q : Paper}
    (h : truthyS q.abstract = true) : tier5_step net q = q := by
  unfold tier5_step tier5_pred
  simp [abstract_beq_none_of_truthy h]

theorem tier5_gate_frozen {net : Net} {venue : String} {q : Paper}
    (h : truthyS q.abstract = true) : tier5_gate net venue q = q := by
  unfold tier5_gate
  by_cases hv : venue == "neurips"
  · simp [hv, tier5_step_frozen h]
  · simp [hv]

theorem enrich_paper_frozen {net : Net} {venue : String} {q : Paper}
    (h : truthyS q.abstract = true) : enrich_paper net venue q = q := by
  unfold enrich_paper
  rw [tier0_gate_frozen h, tier1_step_frozen h, tier2_pstep_frozen h,
    tier3_step_frozen h, tier4_step_frozen h, tier5_gate_frozen h]

/-! ### Stuck lemmas: when a tier's output still has a falsy abstract, the
tier did not change the paper at all (the only mutation sets a truthy
abstract) -/

theorem tier1_step_stuck {net : Net} {venue : String} {p : Paper}
    (h : truthyS (tier1_step net venue p).abstract = false) :
    tier1_step net venue p = p := by
  unfold tier1_step at h ⊢
  by_cases h1 : tier1_pred p
  · by_cases h2 : truthyS
      (fetch_abstract_openreview net p.openreview_id p.year venue).1
    · simp [h1, h2, enrich_fields] at h
    · simp [h1, h2]
  · simp [h1]

theorem tier2_pstep_stuck {net : Net} {p : Paper}
    (h : truthyS (tier2_pstep net p).abstract = false) :
    tier2_pstep net p = p := by
  unfold tier2_pstep at h ⊢
  by_cases h1 : tier2_pred p
  · by_cases hnd : normalize_doi p.doi = ""
    · simp [h1, hnd]
    · cases hw : net.openalexWork (normalize_doi p.doi) with
      | none => simp [h1, hnd, hw]
      | some w =>
        by_cases h2 : truthyS (openalexEntryOfWork w).1
        · simp [h1, hnd, hw, h2, enrich_fields] at h
        · simp [h1, hnd, hw, h2]
  · simp [h1]

theorem tier3_step_stuck {net : Net} {p : Paper}
    (h : truthyS (tier3_step net p).abstract = false) :
    tier3_step net p = p := by
  unfold tier3_step at h ⊢
  by_cases h1 : tier3_pred p
  · by_cases h2 : truthyS (fetch_abstract_openalex_by_title net
      (p.title.getD "")).1
    · simp [h1, h2, enrich_fields] at h
    · simp [h1, h2]
  · simp [h1]

theorem tier4_step_stuck {net : Net} {p : Paper}
    (h : truthyS (tier4_step net p).abstract = false) :
    tier4_step net p = p := by
  unfold tier4_step at h ⊢
  by_cases h1 : tier4_pred p
  · by_cases h2 : truthyS (fetch_abstract_semantic_scholar net
      (normalize_doi_s2 p.doi)).1
    · simp [h1, h2, enrich_fields] at h
    · simp [h1, h2]
  · simp [h1]

theorem tier5_step_stuck {net : Net} {p : Paper}
    (h : truthyS (tier5_step net p).abstract = false) :
    tier5_step net p = p := by
  unfold tier5_step at h ⊢
  by_cases h1 : tier5_pred p
  · cases hx : extract_hash_from_proceedings_url
      (p.neurips_proceedings_url.getD "") with
    | mk oh ot =>
      cases oh with
      | none => simp [h1, hx]
      | some hh =>
        cases ot with
        | none => simp [h1, hx]
        | some tt =>
          by_cases hne : (hh != "" && tt != "")
          · by_cases h2 : truthyS
              (fetch_neurips_proceedings_abstract net p.year hh (some tt)).1
            · simp [h1, hx, hne, h2, enrich_fields] at h
            · simp [h1, hx, hne, h2]
          · simp [h1, hx, hne]
  · simp [h1]

theorem tier5_gate_stuck {net : Net} {venue : String} {p : Paper}
    (h : truthyS (tier5_gate net venue p).abstract = false) :
    tier5_gate net venue p = p := by
  unfold tier5_gate at h ⊢
  by_cases hv : venue == "neurips"
  · simp only [hv, if_pos] at h ⊢
    exact tier5_step_stuck h
  · simp [hv]

/-! ### Tier 0 is idempotent: a found id is truthy, so a second pass skips -/

theorem search_result_truthy {net : Net} {t : Option String} {y : Int}
    {v : String} {fid : String}
    (h : search_openreview_by_title net t y v = some fid) : fid ≠ "" := by
  unfold search_openreview_by_title at h
  split at h
  · exact absurd h (by simp)
  · split at h
    · split at h
      next ht =>
        rw [h] at ht
        rw [truthy_some] at ht
        simpa using ht
      next => exact absurd h (by simp)
    · exact absurd h (by simp)
    · exact absurd h (by simp)

theorem tier0_step_idem {net : Net} {venue : String} {p : Paper} :
    tier0_step net venue (tier0_step net venue p) = tier0_step net venue p
    := by
  by_cases h0 : tier0_pred p
  · cases hs : search_openreview_by_title net p.title p.year venue with
    | none => simp [tier0_step, h0, hs]
    | some fid =>
      have hfid : fid ≠ "" := search_result_truthy hs
      have hres : tier0_step net venue p = { p with openreview_id := some fid }
        := by simp [tier0_step, h0, hs]
      rw [hres]
      have hpred : tier0_pred { p with openreview_id := some fid } = false := by
        unfold tier0_pred
        simp [truthyS, hfid]
      simp [tier0_step, hpred]
  · simp [tier0_step, h0]

theorem tier0_gate_idem {net : Net} {venue : String} {p : Paper} :
    tier0_gate net venue (tier0_gate net venue p) = tier0_gate net venue p
    := by
  unfold tier0_gate
  by_cases hv : OPENREVIEW_VENUES.contains venue = true
  · simp only [if_pos hv]
    exact tier0_step_idem
  · simp only [if_neg hv]

/-! ### Per-paper idempotence of the whole pipeline -/

theorem enrich_paper_idem (net : Net) (venue : String) (p : Paper) :
    enrich_paper net venue (enrich_paper net venue p)
      = enrich_paper net venue p := by
  by_cases ha : truthyS (enrich_paper net venue p).abstract = true
  · exact enrich_paper_frozen ha
  · replace ha : truthyS (enrich_paper net venue p).abstract = false :=
      Bool.eq_false_iff.mpr (fun hc => ha hc)
    have e5 : tier5_gate net venue (tier4_step net (tier3_step net
        (tier2_pstep net (tier1_step net venue (tier0_gate net venue p)))))
        = tier4_step net (tier3_step net (tier2_pstep net (tier1_step net
          venue (tier0_gate net venue p)))) := tier5_gate_stuck ha
    have ha4 : truthyS (tier4_step net (tier3_step net (tier2_pstep net
        (tier1_step net venue (tier0_gate net venue p))))).abstract = false
      := by rw [← e5]; exact ha
    have e4 := tier4_step_stuck ha4
    have ha3 : truthyS (tier3_step net (tier2_pstep net (tier1_step net
        venue (tier0_gate net venue p)))).abstract = false
      := by rw [← e4]; exact ha4
    have e3 := tier3_step_stuck ha3
    have ha2 : truthyS (tier2_pstep net (tier1_step net venue
        (tier0_gate net venue p))).abstract = false
      := by rw [← e3]; exact ha3
    have e2 := tier2_pstep_stuck ha2
    have ha1 : truthyS (tier1_step net venue
        (tier0_gate net venue p)).abstract = false
      := by rw [← e2]; exact ha2
    have e1 := tier1_step_stuck ha1
    have hq0 : enrich_paper net venue p = tier0_gate net venue p := by
      unfold enrich_paper
      rw [e5, e4, e3, e2, e1]
    rw [hq0]
    show enrich_paper net venue (tier0_gate net venue p)
      = tier0_gate net venue p
    unfold enrich_paper
    rw [e1] at e2 e3 e4 e5
    rw [e2] at e3 e4 e5
    rw [e3] at e4 e5
    rw [e4] at e5
    rw [tier0_gate_idem, e1, e2, e3, e4, e5]

/-! ### Shape lemmas: each abstract tier either leaves the paper unchanged or
applies `enrich_fields` with a truthy abstract and that tier's tag -/

theorem tier0_step_shape (net : Net) (venue : String) (p : Paper) :
    tier0_step net venue p = p
    ∨ ∃ fid, tier0_step net venue p = { p with openreview_id := some fid } := by
  by_cases h0 : tier0_pred p
  · cases hs : search_openreview_by_title net p.title p.year venue with
    | none => left; simp [tier0_step, h0, hs]
    | some fid => right; exact ⟨fid, by simp [tier0_step, h0, hs]⟩
  · left; simp [tier0_step, h0]

theorem tier0_gate_shape (net : Net) (venue : String) (p : Paper) :
    tier0_gate net venue p = p
    ∨ ∃ fid, tier0_gate net venue p = { p with openreview_id := some fid }
    := by
  unfold tier0_gate
  by_cases hv : OPENREVIEW_VENUES.contains venue = true
  · rw [if_pos hv]; exact tier0_step_shape net venue p
  · rw [if_neg hv]; left; rfl

theorem tier1_step_shape (net : Net) (venue : String) (p : Paper) :
    tier1_step net venue p = p
    ∨ ∃ a cc sid, truthyS a = true
        ∧ tier1_step net venue p = enrich_fields p a cc sid "openreview" := by
  by_cases h1 : tier1_pred p
  · by_cases h2 : truthyS
        (fetch_abstract_openreview net p.openreview_id p.year venue).1 = true
    · right
      refine ⟨(fetch_abstract_openreview net p.openreview_id p.year venue).1,
        (fetch_abstract_openreview net p.openreview_id p.year venue).2.1,
        (fetch_abstract_openreview net p.openreview_id p.year venue).2.2,
        h2, ?_⟩
      simp [tier1_step, h1, h2]
    · left; simp [tier1_step, h1, h2]
  · left; simp [tier1_step, h1]

theorem tier2_step_shape
    (dict : List (String × (Option String × Option Int × Option String)))
    (p : Paper) :
    tier2_step dict p = p
    ∨ ∃ a cc sid, truthyS a = true
        ∧ tier2_step dict p = enrich_fields p a cc sid "openalex" := by
  by_cases h1 : tier2_pred p
  · cases hl : dict.lookup (normalize_doi p.doi) with
    | none => left; simp [tier2_step, h1, hl]
    | some r =>
      by_cases h2 : truthyS r.1 = true
      · right
        refine ⟨r.1, r.2.1, r.2.2, h2, ?_⟩
        simp [tier2_step, h1, hl, h2]
      · left; simp [tier2_step, h1, hl, h2]
  · left; simp [tier2_step, h1]

theorem tier2_pstep_shape (net : Net) (p : Paper) :
    tier2_pstep net p = p
    ∨ ∃ a cc sid, truthyS a = true
        ∧ tier2_pstep net p = enrich_fields p a cc sid "openalex" := by
  by_cases h1 : tier2_pred p
  · by_cases hnd : normalize_doi p.doi = ""
    · left; simp [tier2_pstep, h1, hnd]
    · cases hw : net.openalexWork (normalize_doi p.doi) with
      | none => left; simp [tier2_pstep, h1, hnd, hw]
      | some w =>
        by_cases h2 : truthyS (openalexEntryOfWork w).1 = true
        · right
          refine ⟨(openalexEntryOfWork w).1, (openalexEntryOfWork w).2.1,
            (openalexEntryOfWork w).2.2, h2, ?_⟩
          simp [tier2_pstep, h1, hnd, hw, h2]
        · left; simp [tier2_pstep, h1, hnd, hw, h2]
  · left; simp [tier2_pstep, h1]

theorem tier3_step_shape (net : Net) (p : Paper) :
    tier3_step net p = p
    ∨ ∃ a cc sid, truthyS a = true
        ∧ tier3_step net p = enrich_fields p a cc sid "openalex_title" := by
  by_cases h1 : tier3_pred p
  · by_cases h2 : truthyS
        (fetch_abstract_openalex_by_title net (p.title.getD "")).1 = true
    · right
      refine ⟨(fetch_abstract_openalex_by_title net (p.title.getD "")).1,
        (fetch_abstract_openalex_by_title net (p.title.getD "")).2.1,
        (fetch_abstract_openalex_by_title net (p.title.getD "")).2.2,
        h2, ?_⟩
      simp [tier3_step, h1, h2]
    · left; simp [tier3_step, h1, h2]
  · left; simp [tier3_step, h1]

theorem tier4_step_shape (net : Net) (p : Paper) :
    tier4_step net p = p
    ∨ ∃ a cc sid, truthyS a = true
        ∧ tier4_step net p = enrich_fields p a cc sid "semantic_scholar" := by
  by_cases h1 : tier4_pred p
  · by_cases h2 : truthyS
        (fetch_abstract_semantic_scholar net (normalize_doi_s2 p.doi)).1 = true
    · right
      refine ⟨(fetch_abstract_semantic_scholar net (normalize_doi_s2 p.doi)).1,
        (fetch_abstract_semantic_scholar net (normalize_doi_s2 p.doi)).2.1,
        (fetch_abstract_semantic_scholar net (normalize_doi_s2 p.doi)).2.2,
        h2, ?_⟩
      simp [tier4_step, h1, h2]
    · left; simp [tier4_step, h1, h2]
  · left; simp [tier4_step, h1]

theorem tier5_step_shape (net : Net) (p : Paper) :
    tier5_step net p = p
    ∨ ∃ a cc sid, truthyS a = true
        ∧ tier5_step net p = enrich_fields p a cc sid "neurips_proceedings"
    := by
  by_cases h1 : tier5_pred p
  · cases hx : extract_hash_from_proceedings_url
      (p.neurips_proceedings_url.getD "") with
    | mk oh ot =>
      cases oh with
      | none => left; simp [tier5_step, h1, hx]
      | some hh =>
        cases ot with
        | none => left; simp [tier5_step, h1, hx]
        | some tt =>
          by_cases hne : (hh != "" && tt != "") = true
          · by_cases h2 : truthyS
              (fetch_neurips_proceedings_abstract net p.year hh (some tt)).1
                = true
            · right
              refine
                ⟨(fetch_neurips_proceedings_abstract net p.year hh (some tt)).1,
                (fetch_neurips_proceedings_abstract net p.year hh (some tt)).2.1,
                (fetch_neurips_proceedings_abstract net p.year hh
                  (some tt)).2.2, h2, ?_⟩
              simp [tier5_step, h1, hx, hne, h2]
            · left; simp [tier5_step, h1, hx, hne, h2]
          · left; simp [tier5_step, h1, hx, hne]
  · left; simp [tier5_step, h1]

theorem tier5_gate_shape (net : Net) (venue : String) (p : Paper) :
    tier5_gate net venue p = p
    ∨ ∃ a cc sid, truthyS a = true
        ∧ tier5_gate net venue p = enrich_fields p a cc sid
            "neurips_proceedings" := by
  unfold tier5_gate
  by_cases hv : (venue == "neurips") = true
  · rw [if_pos hv]; exact tier5_step_shape net p
  · rw [if_neg hv]; left; rfl

/-! ### The abstract-source invariant (claim C2) -/

/-- `abstract_source` is non-null iff `abstract` is non-null. -/
def source_iff_abstract (p : Paper) : Prop :=
  p.abstract_source ≠ none ↔ p.abstract ≠ none

theorem inv_enrich_fields {p : Paper} {a : Option String} {cc : Option Int}
    {sid : Option String} {tag : String} (ha : truthyS a = true) :
    source_iff_abstract (enrich_fields p a cc sid tag) := by
  unfold source_iff_abstract
  have := truthy_ne_none ha
  simp [enrich_fields, this]

theorem inv_tier0_gate (net : Net) (venue : String) (p : Paper)
    (h : source_iff_abstract p) :
    source_iff_abstract (tier0_gate net venue p) := by
  rcases tier0_gate_shape net venue p with he | ⟨fid, he⟩
  · rw [he]; exact h
  · rw [he]
    unfold source_iff_abstract at h ⊢
    exact h

theorem inv_tier1_step (net : Net) (venue : String) (p : Paper)
    (h : source_iff_abstract p) :
    source_iff_abstract (tier1_step net venue p) := by
  rcases tier1_step_shape net venue p with he | ⟨a, cc, sid, ha, he⟩ <;>
    rw [he]
  · exact h
  · exact inv_enrich_fields ha

theorem inv_tier2_step
    (dict : List (String × (Option String × Option Int × Option String)))
    (p : Paper) (h : source_iff_abstract p) :
    source_iff_abstract (tier2_step dict p) := by
  rcases tier2_step_shape dict p with he | ⟨a, cc, sid, ha, he⟩ <;> rw [he]
  · exact h
  · exact inv_enrich_fields ha

theorem inv_tier2_pstep (net : Net) (p : Paper) (h : source_iff_abstract p) :
    source_iff_abstract (tier2_pstep net p) := by
  rcases tier2_pstep_shape net p with he | ⟨a, cc, sid, ha, he⟩ <;> rw [he]
  · exact h
  · exact inv_enrich_fields ha

theorem inv_tier3_step (net : Net) (p : Paper) (h : source_iff_abstract p) :
    source_iff_abstract (tier3_step net p) := by
  rcases tier3_step_shape net p with he | ⟨a, cc, sid, ha, he⟩ <;> rw [he]
  · exact h
  · exact inv_enrich_fields ha

theorem inv_tier4_step (net : Net) (p : Paper) (h : source_iff_abstract p) :
    source_iff_abstract (tier4_step net p) := by
  rcases tier4_step_shape net p with he | ⟨a, cc, sid, ha, he⟩ <;> rw [he]
  · exact h
  · exact inv_enrich_fields ha

theorem inv_tier5_gate (net : Net) (venue : String) (p : Paper)
    (h : source_iff_abstract p) :
    source_iff_abstract (tier5_gate net venue p) := by
  rcases tier5_gate_shape net venue p with he | ⟨a, cc, sid, ha, he⟩ <;>
    rw [he]
  · exact h
  · exact inv_enrich_fields ha

theorem inv_enrich_paper (net : Net) (venue : String) (p : Paper)
    (h : source_iff_abstract p) :
    source_iff_abstract (enrich_paper net venue p) := by
  unfold enrich_paper
  exact inv_tier5_gate _ _ _ (inv_tier4_step _ _ (inv_tier3_step _ _
    (inv_tier2_pstep _ _ (inv_tier1_step _ _ _ (inv_tier0_gate _ _ _ h)))))

/-- C1: running `enrich_papers_with_abstracts` a second time, seeded with the
first run's output collection (the sources being the same deterministic
oracles), changes nothing: in particular no record that had a non-null
abstract after the first run is modified, and the coverage statistics (total,
count with abstract, breakdown by `abstract_source`) of the second run equal
those of a single run.  Every tier filters on a falsy or null abstract, every
mutation makes the abstract truthy, and a failed attempt leaves the record
bit-for-bit unchanged, so the second run is the identity on the whole
collection. -/
theorem C1_enrichment_idempotent (net : Net) (venue : String) (r1 r2 : Bool)
    (ps : List Paper) :
    (enrich_papers_with_abstracts net venue r2
        (enrich_papers_with_abstracts net venue r1 ps).1).1
      = (enrich_papers_with_abstracts net venue r1 ps).1
    ∧ coverage_stats (enrich_papers_with_abstracts net venue r2
        (enrich_papers_with_abstracts net venue r1 ps).1).1
      = coverage_stats (enrich_papers_with_abstracts net venue r1 ps).1 := by
  have key : (enrich_papers_with_abstracts net venue r2
      (enrich_papers_with_abstracts net venue r1 ps).1).1
      = (enrich_papers_with_abstracts net venue r1 ps).1 := by
    rw [enrich_eq_map, enrich_eq_map, List.map_map]
    exact List.map_congr_left
      (fun p _ => enrich_paper_idem net venue p)
  exact ⟨key, by rw [key]⟩

/-- C2: if every paper of the input collection satisfies
"`abstract_source` is non-null iff `abstract` is non-null", then every paper
still satisfies it after each individual tier (the per-paper actions of
tiers 0-5, including the dict-merging form of the OpenAlex batch tier), and
after the whole pipeline: the two fields are only ever written together, with
a truthy abstract and a `some` tag. -/
theorem C2_source_iff_abstract_invariant :
    (∀ net venue p, source_iff_abstract p →
      source_iff_abstract (tier0_gate net venue p))
    ∧ (∀ net venue p, source_iff_abstract p →
      source_iff_abstract (tier1_step net venue p))
    ∧ (∀ dict p, source_iff_abstract p →
      source_iff_abstract (tier2_step dict p))
    ∧ (∀ net p, source_iff_abstract p →
      source_iff_abstract (tier3_step net p))
    ∧ (∀ net p, source_iff_abstract p →
      source_iff_abstract (tier4_step net p))
    ∧ (∀ net venue p, source_iff_abstract p →
      source_iff_abstract (tier5_gate net venue p))
    ∧ (∀ net venue r ps, (∀ p ∈ ps, source_iff_abstract p) →
      ∀ q ∈ (enrich_papers_with_abstracts net venue r ps).1,
        source_iff_abstract q) := by
  refine ⟨inv_tier0_gate, inv_tier1_step, inv_tier2_step, inv_tier3_step,
    inv_tier4_step, inv_tier5_gate, ?_⟩
  intro net venue r ps hps q hq
  rw [enrich_eq_map, List.mem_map] at hq
  obtain ⟨p, hp, rfl⟩ := hq
  exact inv_enrich_paper net venue p (hps p hp)

/-- A paper with every field empty, as the harvesting stage would create it
(identity fields omitted, enrichment fields null). -/
def basePaper : Paper where
  title := none
  year := 2020
  doi := none
  openreview_id := none
  neurips_proceedings_url := none
  abstract := none
  citation_count := none
  abstract_source := none
  source_id := none

/-- A `Net` on which every source reports "not found". -/
def netNotFound : Net where
  openreviewSearchNotes := fun _ _ _ => Response.ok none
  openreviewNotes := fun _ _ => Response.ok none
  openalexWork := fun _ => none
  openalexTitleSearch := fun _ => Response.ok none
  semanticScholar := fun _ => Response.httpError 404
  neuripsPage := fun _ => Response.httpError 404

theorem C2_source_iff_abstract_invariant_witness :
    (∀ p ∈ [basePaper], source_iff_abstract p)
    ∧ ∀ q ∈ (enrich_papers_with_abstracts netNotFound "cvpr" true
        [basePaper]).1, source_iff_abstract q := by
  have hbase : ∀ p ∈ [basePaper], source_iff_abstract p := by
    intro p hp
    rw [List.mem_singleton] at hp
    subst hp
    unfold source_iff_abstract basePaper
    simp
  exact ⟨hbase, C2_source_iff_abstract_invariant.2.2.2.2.2.2
    netNotFound "cvpr" true [basePaper] hbase⟩

/-- C9: papers with a truthy abstract are excluded from every tier
unconditionally; `config.ENABLE_RECOVERY_MODE` is read only by the
recovery-mode log statement (fetch_papers.py 765-770), so the enriched
collection (hence every tier's working set along the way) is identical for
both settings of the flag, and only the returned log depends on it. -/
theorem C9_recovery_flag_only_logs (net : Net) (venue : String)
    (ps : List Paper) (r1 r2 : Bool) :
    (enrich_papers_with_abstracts net venue r1 ps).1
      = (enrich_papers_with_abstracts net venue r2 ps).1
    ∧ (enrich_papers_with_abstracts net venue false ps).2 = []
    ∧ (enrich_papers_with_abstracts net venue true ps).2
      = (if 0 < (ps.filter (fun p => truthyS p.abstract)).length then
          ["Recovery mode: papers already have abstracts"] else []) := by
  refine ⟨rfl, rfl, ?_⟩
  by_cases h : 0 < (ps.filter (fun p => truthyS p.abstract)).length
  · simp [enrich_papers_with_abstracts, h]
  · simp [enrich_papers_with_abstracts, h]

/-! ### Claim C5: working-set membership and the recovery skip -/

/-- Well-formedness of a record's abstract field: the pipeline itself only
ever stores `None` or a truthy (non-empty) abstract, and a checkpoint is the
output of an earlier run, so `some ""` never occurs in practice; under this
condition "falsy" and "null" coincide. -/
def paper_wf (p : Paper) : Prop := p.abstract ≠ some ""

theorem not_truthy_iff_none {o : Option String} (w : o ≠ some "") :
    (truthyS o = false) ↔ o = none := by
  cases o with
  | none => simp [truthyS]
  | some s =>
    have hs : s ≠ "" := fun h => w (by rw [h])
    simp [truthyS, hs]

/-- C5: for every collection, a paper belongs to a tier's working set iff its
abstract is still null and it possesses (truthy) the key field that tier
requires — forum id for the OpenReview tier, DOI for the OpenAlex-batch and
Semantic Scholar tiers, title for the title-search tier, proceedings URL for
the proceedings tier (which additionally runs only for the neurips venue, see
`tier5_gate`).  Consequently a paper whose abstract is already non-null when
the run starts (e.g., loaded from a checkpoint) passes the whole pipeline
unchanged, whatever the source oracles do — no source client's answer can
reach it. -/
theorem C5_working_sets_and_recovery_skip :
    (∀ (ps : List Paper) (p : Paper), paper_wf p →
      (p ∈ tier1_working_set ps ↔
        p ∈ ps ∧ p.abstract = none ∧ truthyS p.openreview_id = true))
    ∧ (∀ (ps : List Paper) (p : Paper), paper_wf p →
      (p ∈ tier2_working_set ps ↔
        p ∈ ps ∧ p.abstract = none ∧ truthyS p.doi = true))
    ∧ (∀ (ps : List Paper) (p : Paper),
      p ∈ tier3_working_set ps ↔
        p ∈ ps ∧ p.abstract = none ∧ truthyS p.title = true)
    ∧ (∀ (ps : List Paper) (p : Paper),
      p ∈ tier4_working_set ps ↔
        p ∈ ps ∧ p.abstract = none ∧ truthyS p.doi = true)
    ∧ (∀ (ps : List Paper) (p : Paper),
      p ∈ tier5_working_set ps ↔
        p ∈ ps ∧ p.abstract = none
          ∧ truthyS p.neurips_proceedings_url = true)
    ∧ (∀ (net : Net) (venue : String) (p : Paper), paper_wf p →
      p.abstract ≠ none → enrich_paper net venue p = p) := by
  have habs : ∀ (p : Paper), paper_wf p →
      ((!truthyS p.abstract) = true ↔ p.abstract = none) := by
    intro p w
    rw [Bool.not_eq_eq_eq_not, Bool.not_true]
    exact not_truthy_iff_none w
  refine ⟨?_, ?_, ?_, ?_, ?_, ?_⟩
  · intro ps p w
    unfold tier1_working_set tier1_pred
    rw [List.mem_filter, Bool.and_eq_true, habs p w]
    tauto
  · intro ps p w
    unfold tier2_working_set tier2_pred
    rw [List.mem_filter, Bool.and_eq_true, habs p w]
    tauto
  · intro ps p
    unfold tier3_working_set tier3_pred
    rw [List.mem_filter, Bool.and_eq_true, beq_iff_eq]
  · intro ps p
    unfold tier4_working_set tier4_pred
    rw [List.mem_filter, Bool.and_eq_true, beq_iff_eq]
  · intro ps p
    unfold tier5_working_set tier5_pred
    rw [List.mem_filter, Bool.and_eq_true, beq_iff_eq]
  · intro net venue p w hne
    have ht : truthyS p.abstract = true := by
      cases hb : truthyS p.abstract with
      | false => exact absurd ((not_truthy_iff_none w).mp hb) hne
      | true => rfl
    exact enrich_paper_frozen ht

/-- A checkpointed paper: abstract already present. -/
def enrichedPaper : Paper :=
  { basePaper with
    abstract := some "X"
    abstract_source := some "openreview"
    openreview_id := some "fid1"
    doi := some "10.1/z" }

theorem C5_working_sets_and_recovery_skip_witness :
    paper_wf enrichedPaper
    ∧ (enrichedPaper ∈ tier1_working_set [enrichedPaper] ↔
        enrichedPaper ∈ [enrichedPaper] ∧ enrichedPaper.abstract = none
          ∧ truthyS enrichedPaper.openreview_id = true)
    ∧ enrich_paper netNotFound "neurips" enrichedPaper = enrichedPaper := by
  have hwf : paper_wf enrichedPaper := by
    unfold paper_wf enrichedPaper basePaper
    simp
  exact ⟨hwf,
    C5_working_sets_and_recovery_skip.1 [enrichedPaper] enrichedPaper hwf,
    C5_working_sets_and_recovery_skip.2.2.2.2.2 netNotFound "neurips"
      enrichedPaper hwf (by unfold enrichedPaper basePaper; simp)⟩

/-! ### Claim C3: tier exclusivity -/

/-- What the OpenReview client returns (abstract component) for this paper's
key. -/
def tier1_client_abstract (net : Net) (venue : String) (p : Paper) :
    Option String :=
  (fetch_abstract_openreview net p.openreview_id p.year venue).1

/-- What the OpenAlex batch lookup yields for this paper's normalized DOI
(nothing when the DOI normalizes to the empty string, since such a DOI is
never put into the batch). -/
def tier2_client_abstract (net : Net) (p : Paper) : Option String :=
  if normalize_doi p.doi != "" then
    match net.openalexWork (normalize_doi p.doi) with
    | some w => openalexAbstractOfWork w
    | none => none
  else none

/-- What the OpenAlex title-search client returns for this paper's title. -/
def tier3_client_abstract (net : Net) (p : Paper) : Option String :=
  (fetch_abstract_openalex_by_title net (p.title.getD "")).1

/-- What the Semantic Scholar client returns for this paper's DOI. -/
def tier4_client_abstract (net : Net) (p : Paper) : Option String :=
  (fetch_abstract_semantic_scholar net (normalize_doi_s2 p.doi)).1

/-- What the proceedings client returns for the hash extracted from this
paper's proceedings URL (nothing when no hash can be extracted). -/
def tier5_client_abstract (net : Net) (p : Paper) : Option String :=
  match extract_hash_from_proceedings_url
    (p.neurips_proceedings_url.getD "") with
  | (some h, some tr) =>
    if h != "" && tr != "" then
      (fetch_neurips_proceedings_abstract net p.year h (some tr)).1
    else none
  | (some _, none) => none
  | (none, _) => none

/-- Modelled from the spec's tier-exclusivity wording: the tag of the first
tier in the fixed priority order (openreview, openalex batch-by-DOI, openalex
title search, semantic_scholar, neurips_proceedings) for which the paper is
eligible (possesses the tier's key field; the proceedings tier additionally
requires the neurips venue) and whose client returns a non-null abstract.
Evaluated on the paper state after the id-recovery pass. -/
def first_success_source (net : Net) (venue : String) (p : Paper) :
    Option String :=
  if truthyS p.openreview_id && (tier1_client_abstract net venue p).isSome
    then some "openreview"
  else if truthyS p.doi && (tier2_client_abstract net p).isSome
    then some "openalex"
  else if truthyS p.title && (tier3_client_abstract net p).isSome
    then some "openalex_title"
  else if truthyS p.doi && (tier4_client_abstract net p).isSome
    then some "semantic_scholar"
  else if (venue == "neurips") && (truthyS p.neurips_proceedings_url
      && (tier5_client_abstract net p).isSome)
    then some "neurips_proceedings"
  else none

/-- Source well-formedness: no source ever reports an abstract that is
present but empty (`some ""`); real payloads are either absent or non-empty
text, and under this condition "non-null" and "truthy" coincide, which is how
the code's `if abstract:` checks line up with the spec's "non-null". -/
def Net.wf (net : Net) : Prop :=
  (∀ fid y v, net.openreviewNotes fid y = Response.ok (some v) →
    ORVal.unwrap v ≠ "")
  ∧ (∀ d w, net.openalexWork d = some w →
    openalexAbstractOfWork w ≠ some "")
  ∧ (∀ t w, net.openalexTitleSearch t = Response.ok (some w) →
    openalexAbstractOfWork w ≠ some "")
  ∧ (∀ d pl, net.semanticScholar d = Response.ok pl →
    pl.abstract ≠ some "")

theorem truthy_eq_isSome {o : Option String} (w : o ≠ some "") :
    truthyS o = o.isSome := by
  cases o with
  | none => rfl
  | some s =>
    have hs : s ≠ "" := fun h => w (by rw [h])
    simp [truthyS, hs]

theorem tier1_client_ne_empty {net : Net} {venue : String} {p : Paper}
    (hwf : net.wf) : tier1_client_abstract net venue p ≠ some "" := by
  unfold tier1_client_abstract fetch_abstract_openreview
  by_cases hg : (!truthyS p.openreview_id) = true
  · simp [hg]
  · simp only [hg, Bool.false_eq_true, if_false]
    cases hr : net.openreviewNotes (p.openreview_id.getD "") p.year with
    | ok payload =>
      cases payload with
      | none => simp
      | some v =>
        have := hwf.1 _ _ _ hr
        simp [this]
    | httpError s => simp
    | netError => simp

theorem tier2_client_ne_empty {net : Net} {p : Paper}
    (hwf : net.wf) : tier2_client_abstract net p ≠ some "" := by
  unfold tier2_client_abstract
  by_cases hnd : (normalize_doi p.doi != "") = true
  · simp only [hnd, if_pos]
    cases hw : net.openalexWork (normalize_doi p.doi) with
    | none => simp
    | some w => exact hwf.2.1 _ _ hw
  · simp [hnd]

theorem tier3_client_ne_empty {net : Net} {p : Paper}
    (hwf : net.wf) : tier3_client_abstract net p ≠ some "" := by
  unfold tier3_client_abstract fetch_abstract_openalex_by_title
  by_cases hg : (p.title.getD "" == "" || (p.title.getD "").length < 10) = true
  · simp [hg]
  · simp only [hg, Bool.false_eq_true, if_false]
    cases hr : net.openalexTitleSearch (p.title.getD "") with
    | ok payload =>
      cases payload with
      | none => simp
      | some w =>
        have := hwf.2.2.1 _ _ hr
        simpa [openalexEntryOfWork] using this
    | httpError s => simp
    | netError => simp

theorem tier4_client_ne_empty {net : Net} {p : Paper}
    (hwf : net.wf) : tier4_client_abstract net p ≠ some "" := by
  unfold tier4_client_abstract fetch_abstract_semantic_scholar
  split
  · simp
  · split
    next payload heq =>
      have := hwf.2.2.2 _ _ heq
      simp [this]
    next => simp
    next => simp
    next => simp

theorem tier5_client_ne_empty {net : Net} {p : Paper} :
    tier5_client_abstract net p ≠ some "" := by
  unfold tier5_client_abstract
  cases hx : extract_hash_from_proceedings_url
    (p.neurips_proceedings_url.getD "") with
  | mk oh ot =>
    cases oh with
    | none => simp
    | some hh =>
      cases ot with
      | none => simp
      | some tt =>
        by_cases hne : (hh != "" && tt != "") = true
        · simp only [hne, if_pos]
          unfold fetch_neurips_proceedings_abstract
          by_cases hh0 : (hh == "") = true
          · simp [hh0]
          · simp only [hh0, Bool.false_eq_true, if_false]
            cases hr : net.neuripsPage (neurips_url p.year hh) with
            | ok payload =>
              cases payload with
              | none => simp [truthyS]
              | some s =>
                by_cases hs : s = ""
                · subst hs; simp [truthyS]
                · simp [truthyS, hs]
            | httpError s => simp
            | netError => simp
        · simp [hne]

/-! ### Success / failure / skip characterizations of the tier steps -/

theorem tier1_step_skip {net : Net} {venue : String} {p : Paper}
    (hpred : tier1_pred p = false) : tier1_step net venue p = p := by
  simp [tier1_step, hpred]

theorem tier1_step_succ {net : Net} {venue : String} {p : Paper}
    (hpred : tier1_pred p = true)
    (hc : truthyS (tier1_client_abstract net venue p) = true) :
    (tier1_step net venue p).abstract_source = some "openreview"
    ∧ truthyS (tier1_step net venue p).abstract = true := by
  unfold tier1_client_abstract at hc
  simp [tier1_step, hpred, hc, enrich_fields]

theorem tier1_step_fail {net : Net} {venue : String} {p : Paper}
    (hc : truthyS (tier1_client_abstract net venue p) = false) :
    tier1_step net venue p = p := by
  unfold tier1_client_abstract at hc
  by_cases hpred : tier1_pred p = true
  · simp [tier1_step, hpred, hc]
  · simp [tier1_step, hpred]

theorem tier2_pstep_skip {net : Net} {p : Paper}
    (hpred : tier2_pred p = false) : tier2_pstep net p = p := by
  simp [tier2_pstep, hpred]

theorem tier2_pstep_succ {net : Net} {p : Paper}
    (hpred : tier2_pred p = true)
    (hc : truthyS (tier2_client_abstract net p) = true) :
    (tier2_pstep net p).abstract_source = some "openalex"
    ∧ truthyS (tier2_pstep net p).abstract = true := by
  unfold tier2_client_abstract at hc
  by_cases hnd : (normalize_doi p.doi != "") = true
  · rw [if_pos hnd] at hc
    cases hw : net.openalexWork (normalize_doi p.doi) with
    | none => rw [hw] at hc; simp [truthyS] at hc
    | some w =>
      rw [hw] at hc
      simp [tier2_pstep, hpred, hnd, hw, openalexEntryOfWork, hc,
        enrich_fields]
  · rw [if_neg hnd] at hc
    simp [truthyS] at hc

theorem tier2_pstep_fail {net : Net} {p : Paper}
    (hc : truthyS (tier2_client_abstract net p) = false) :
    tier2_pstep net p = p := by
  unfold tier2_client_abstract at hc
  by_cases hpred : tier2_pred p = true
  · by_cases hnd : (normalize_doi p.doi != "") = true
    · rw [if_pos hnd] at hc
      cases hw : net.openalexWork (normalize_doi p.doi) with
      | none => simp [tier2_pstep, hpred, hnd, hw]
      | some w =>
        rw [hw] at hc
        simp [tier2_pstep, hpred, hnd, hw, openalexEntryOfWork, hc]
    · have hnd2 : (normalize_doi p.doi != "") = false :=
        Bool.eq_false_iff.mpr hnd
      simp [tier2_pstep, hpred, hnd2]
  · simp [tier2_pstep, hpred]

theorem tier3_step_skip {net : Net} {p : Paper}
    (hpred : tier3_pred p = false) : tier3_step net p = p := by
  simp [tier3_step, hpred]

theorem tier3_step_succ {net : Net} {p : Paper}
    (hpred : tier3_pred p = true)
    (hc : truthyS (tier3_client_abstract net p) = true) :
    (tier3_step net p).abstract_source = some "openalex_title"
    ∧ truthyS (tier3_step net p).abstract = true := by
  unfold tier3_client_abstract at hc
  simp [tier3_step, hpred, hc, enrich_fields]

theorem tier3_step_fail {net : Net} {p : Paper}
    (hc : truthyS (tier3_client_abstract net p) = false) :
    tier3_step net p = p := by
  unfold tier3_client_abstract at hc
  by_cases hpred : tier3_pred p = true
  · simp [tier3_step, hpred, hc]
  · simp [tier3_step, hpred]

theorem tier4_step_skip {net : Net} {p : Paper}
    (hpred : tier4_pred p = false) : tier4_step net p = p := by
  simp [tier4_step, hpred]

theorem tier4_step_succ {net : Net} {p : Paper}
    (hpred : tier4_pred p = true)
    (hc : truthyS (tier4_client_abstract net p) = true) :
    (tier4_step net p).abstract_source = some "semantic_scholar"
    ∧ truthyS (tier4_step net p).abstract = true := by
  unfold tier4_client_abstract at hc
  simp [tier4_step, hpred, hc, enrich_fields]

theorem tier4_step_fail {net : Net} {p : Paper}
    (hc : truthyS (tier4_client_abstract net p) = false) :
    tier4_step net p = p := by
  unfold tier4_client_abstract at hc
  by_cases hpred : tier4_pred p = true
  · simp [tier4_step, hpred, hc]
  · simp [tier4_step, hpred]

theorem tier5_step_succ {net : Net} {p : Paper}
    (hpred : tier5_pred p = true)
    (hc : truthyS (tier5_client_abstract net p) = true) :
    (tier5_step net p).abstract_source = some "neurips_proceedings"
    ∧ truthyS (tier5_step net p).abstract = true := by
  unfold tier5_client_abstract at hc
  cases hx : extract_hash_from_proceedings_url
    (p.neurips_proceedings_url.getD "") with
  | mk oh ot =>
    rw [hx] at hc
    cases oh with
    | none => simp [truthyS] at hc
    | some hh =>
      cases ot with
      | none => simp [truthyS] at hc
      | some tt =>
        dsimp only at hc
        by_cases hne : (hh != "" && tt != "") = true
        · rw [if_pos hne] at hc
          simp [tier5_step, hpred, hx, hne, hc, enrich_fields]
        · rw [if_neg hne] at hc
          simp [truthyS] at hc

theorem tier5_step_fail {net : Net} {p : Paper}
    (hc : truthyS (tier5_client_abstract net p) = false) :
    tier5_step net p = p := by
  unfold tier5_client_abstract at hc
  by_cases hpred : tier5_pred p = true
  · cases hx : extract_hash_from_proceedings_url
      (p.neurips_proceedings_url.getD "") with
    | mk oh ot =>
      rw [hx] at hc
      cases oh with
      | none => simp [tier5_step, hpred, hx]
      | some hh =>
        cases ot with
        | none => simp [tier5_step, hpred, hx]
        | some tt =>
          dsimp only at hc
          by_cases hne : (hh != "" && tt != "") = true
          · rw [if_pos hne] at hc
            simp [tier5_step, hpred, hx, hne, hc]
          · have hne2 : (hh != "" && tt != "") = false :=
              Bool.eq_false_iff.mpr hne
            simp [tier5_step, hpred, hx, hne2]
  · simp [tier5_step, hpred]

theorem tier5_step_skip {net : Net} {p : Paper}
    (hpred : tier5_pred p = false) : tier5_step net p = p := by
  simp [tier5_step, hpred]

/-- C3: for a paper that starts the run unenriched, if its abstract is
non-null at the end then `abstract_source` is exactly the tag of the first
tier in the fixed priority order for which the paper was eligible and whose
client returned a non-null abstract (evaluated on the id-resolved paper); and
once a paper's abstract is truthy, every tier step returns it bit-for-bit
unchanged, so no later tier modifies any of its fields.  Requires `Net.wf`
(sources never answer `some ""`) so that the code's truthiness checks
coincide with the spec's "non-null". -/
theorem C3_tier_exclusivity (net : Net) (venue : String) (p : Paper)
    (hwf : net.wf) (h0 : p.abstract = none) :
    ((enrich_paper net venue p).abstract ≠ none →
      (enrich_paper net venue p).abstract_source
        = first_success_source net venue (tier0_gate net venue p))
    ∧ (∀ x : Paper, truthyS x.abstract = true →
        tier0_gate net venue x = x ∧ tier1_step net venue x = x
        ∧ tier2_pstep net x = x ∧ tier3_step net x = x
        ∧ tier4_step net x = x ∧ tier5_gate net venue x = x) := by
  refine ⟨?_, fun x hx => ⟨tier0_gate_frozen hx, tier1_step_frozen hx,
    tier2_pstep_frozen hx, tier3_step_frozen hx, tier4_step_frozen hx,
    tier5_gate_frozen hx⟩⟩
  intro hne
  unfold enrich_paper at hne ⊢
  set p0 := tier0_gate net venue p with hp0def
  have hp0abs : p0.abstract = none := by
    rw [hp0def]
    rcases tier0_gate_shape net venue p with he | ⟨fid, he⟩
    · rw [he]; exact h0
    · rw [he]; exact h0
  have hnabs : (!truthyS p0.abstract) = true := by rw [hp0abs]; rfl
  have hbeq : (p0.abstract == none) = true := by rw [hp0abs]; rfl
  have hbridge1 : truthyS (tier1_client_abstract net venue p0)
      = (tier1_client_abstract net venue p0).isSome :=
    truthy_eq_isSome (tier1_client_ne_empty hwf)
  have hbridge2 : truthyS (tier2_client_abstract net p0)
      = (tier2_client_abstract net p0).isSome :=
    truthy_eq_isSome (tier2_client_ne_empty hwf)
  have hbridge3 : truthyS (tier3_client_abstract net p0)
      = (tier3_client_abstract net p0).isSome :=
    truthy_eq_isSome (tier3_client_ne_empty hwf)
  have hbridge4 : truthyS (tier4_client_abstract net p0)
      = (tier4_client_abstract net p0).isSome :=
    truthy_eq_isSome (tier4_client_ne_empty hwf)
  have hbridge5 : truthyS (tier5_client_abstract net p0)
      = (tier5_client_abstract net p0).isSome :=
    truthy_eq_isSome tier5_client_ne_empty
  unfold first_success_source
  rw [← hbridge1, ← hbridge2, ← hbridge3, ← hbridge4, ← hbridge5]
  by_cases hC1 : (truthyS p0.openreview_id
      && truthyS (tier1_client_abstract net venue p0)) = true
  · have hparts := hC1
    rw [Bool.and_eq_true] at hparts
    obtain ⟨hid, hc1⟩ := hparts
    have hpred : tier1_pred p0 = true := by
      unfold tier1_pred; rw [hid, hnabs]; rfl
    obtain ⟨hsrc, habs⟩ := tier1_step_succ hpred hc1
    rw [tier2_pstep_frozen habs, tier3_step_frozen habs,
      tier4_step_frozen habs, tier5_gate_frozen habs, hsrc, hC1]
    rfl
  · have hC1f : (truthyS p0.openreview_id
        && truthyS (tier1_client_abstract net venue p0)) = false :=
      Bool.eq_false_iff.mpr hC1
    have e1 : tier1_step net venue p0 = p0 := by
      by_cases hid : truthyS p0.openreview_id = true
      · have hc1 : truthyS (tier1_client_abstract net venue p0) = false := by
          cases hcb : truthyS (tier1_client_abstract net venue p0) with
          | true => rw [hid, hcb] at hC1f; simp at hC1f
          | false => rfl
        exact tier1_step_fail hc1
      · have hidf : truthyS p0.openreview_id = false :=
          Bool.eq_false_iff.mpr hid
        have hpredf : tier1_pred p0 = false := by
          unfold tier1_pred; rw [hidf]; rfl
        exact tier1_step_skip hpredf
    rw [e1] at hne ⊢
    rw [hC1f]
    simp only [Bool.false_eq_true, if_false]
    by_cases hC2 : (truthyS p0.doi
        && truthyS (tier2_client_abstract net p0)) = true
    · have hparts := hC2
      rw [Bool.and_eq_true] at hparts
      obtain ⟨hdoi, hc2⟩ := hparts
      have hpred : tier2_pred p0 = true := by
        unfold tier2_pred; rw [hdoi, hnabs]; rfl
      obtain ⟨hsrc, habs⟩ := tier2_pstep_succ hpred hc2
      rw [tier3_step_frozen habs, tier4_step_frozen habs,
        tier5_gate_frozen habs, hsrc, hC2]
      rfl
    · have hC2f : (truthyS p0.doi
          && truthyS (tier2_client_abstract net p0)) = false :=
        Bool.eq_false_iff.mpr hC2
      have e2 : tier2_pstep net p0 = p0 := by
        by_cases hdoi : truthyS p0.doi = true
        · have hc2 : truthyS (tier2_client_abstract net p0) = false := by
            cases hcb : truthyS (tier2_client_abstract net p0) with
            | true => rw [hdoi, hcb] at hC2f; simp at hC2f
            | false => rfl
          exact tier2_pstep_fail hc2
        · have hdoif : truthyS p0.doi = false := Bool.eq_false_iff.mpr hdoi
          have hpredf : tier2_pred p0 = false := by
            unfold tier2_pred; rw [hdoif]; rfl
          exact tier2_pstep_skip hpredf
      rw [e2] at hne ⊢
      rw [hC2f]
      simp only [Bool.false_eq_true, if_false]
      by_cases hC3 : (truthyS p0.title
          && truthyS (tier3_client_abstract net p0)) = true
      · have hparts := hC3
        rw [Bool.and_eq_true] at hparts
        obtain ⟨htit, hc3⟩ := hparts
        have hpred : tier3_pred p0 = true := by
          unfold tier3_pred; rw [htit, hbeq]; rfl
        obtain ⟨hsrc, habs⟩ := tier3_step_succ hpred hc3
        rw [tier4_step_frozen habs, tier5_gate_frozen habs, hsrc, hC3]
        rfl
      · have hC3f : (truthyS p0.title
            && truthyS (tier3_client_abstract net p0)) = false :=
          Bool.eq_false_iff.mpr hC3
        have e3 : tier3_step net p0 = p0 := by
          by_cases htit : truthyS p0.title = true
          · have hc3 : truthyS (tier3_client_abstract net p0) = false := by
              cases hcb : truthyS (tier3_client_abstract net p0) with
              | true => rw [htit, hcb] at hC3f; simp at hC3f
              | false => rfl
            exact tier3_step_fail hc3
          · have htitf : truthyS p0.title = false := Bool.eq_false_iff.mpr htit
            have hpredf : tier3_pred p0 = false := by
              unfold tier3_pred; rw [htitf, Bool.and_false]
            exact tier3_step_skip hpredf
        rw [e3] at hne ⊢
        rw [hC3f]
        simp only [Bool.false_eq_true, if_false]
        by_cases hC4 : (truthyS p0.doi
            && truthyS (tier4_client_abstract net p0)) = true
        · have hparts := hC4
          rw [Bool.and_eq_true] at hparts
          obtain ⟨hdoi, hc4⟩ := hparts
          have hpred : tier4_pred p0 = true := by
            unfold tier4_pred; rw [hdoi, hbeq]; rfl
          obtain ⟨hsrc, habs⟩ := tier4_step_succ hpred hc4
          rw [tier5_gate_frozen habs, hsrc, hC4]
          rfl
        · have hC4f : (truthyS p0.doi
              && truthyS (tier4_client_abstract net p0)) = false :=
            Bool.eq_false_iff.mpr hC4
          have e4 : tier4_step net p0 = p0 := by
            by_cases hdoi : truthyS p0.doi = true
            · have hc4 : truthyS (tier4_client_abstract net p0) = false := by
                cases hcb : truthyS (tier4_client_abstract net p0) with
                | true => rw [hdoi, hcb] at hC4f; simp at hC4f
                | false => rfl
              exact tier4_step_fail hc4
            · have hdoif : truthyS p0.doi = false := Bool.eq_false_iff.mpr hdoi
              have hpredf : tier4_pred p0 = false := by
                unfold tier4_pred; rw [hdoif, Bool.and_false]
              exact tier4_step_skip hpredf
          rw [e4] at hne ⊢
          rw [hC4f]
          simp only [Bool.false_eq_true, if_false]
          by_cases hv : (venue == "neurips") = true
          · have hgate : tier5_gate net venue p0 = tier5_step net p0 := by
              unfold tier5_gate; rw [if_pos hv]
            rw [hgate] at hne ⊢
            by_cases hC5 : (truthyS p0.neurips_proceedings_url
                && truthyS (tier5_client_abstract net p0)) = true
            · have hparts := hC5
              rw [Bool.and_eq_true] at hparts
              obtain ⟨hurl, hc5⟩ := hparts
              have hpred : tier5_pred p0 = true := by
                unfold tier5_pred; rw [hurl, hbeq]; rfl
              obtain ⟨hsrc, _⟩ := tier5_step_succ hpred hc5
              rw [hsrc, hv, hC5]
              rfl
            · have hC5f : (truthyS p0.neurips_proceedings_url
                  && truthyS (tier5_client_abstract net p0)) = false :=
                Bool.eq_false_iff.mpr hC5
              have e5 : tier5_step net p0 = p0 := by
                by_cases hurl : truthyS p0.neurips_proceedings_url = true
                · have hc5 : truthyS (tier5_client_abstract net p0) = false
                    := by
                    cases hcb : truthyS (tier5_client_abstract net p0) with
                    | true => rw [hurl, hcb] at hC5f; simp at hC5f
                    | false => rfl
                  exact tier5_step_fail hc5
                · have hurlf : truthyS p0.neurips_proceedings_url = false :=
                    Bool.eq_false_iff.mpr hurl
                  have hpredf : tier5_pred p0 = false := by
                    unfold tier5_pred; rw [hurlf, Bool.and_false]
                  exact tier5_step_skip hpredf
              rw [e5] at hne
              exact absurd hp0abs hne
          · have hgate : tier5_gate net venue p0 = p0 := by
              unfold tier5_gate
              rw [if_neg hv]
            rw [hgate] at hne
            exact absurd hp0abs hne

/-- A demo world: only Semantic Scholar has the abstract. -/
def netDemo : Net where
  openreviewSearchNotes := fun _ _ _ => Response.ok none
  openreviewNotes := fun _ _ => Response.ok none
  openalexWork := fun _ => none
  openalexTitleSearch := fun _ => Response.ok none
  semanticScholar := fun _ =>
    Response.ok ⟨some "An abstract text", some 5, some "pid"⟩
  neuripsPage := fun _ => Response.ok none

def doiPaper : Paper := { basePaper with doi := some "10.1/z" }

theorem netDemo_wf : netDemo.wf := by
  refine ⟨?_, ?_, ?_, ?_⟩
  · intro fid y v h
    exact absurd (Response.ok.inj h) (by simp)
  · intro d w h
    simp [netDemo] at h
  · intro t w h
    exact absurd (Response.ok.inj h) (by simp)
  · intro d pl h
    have hp : pl = ⟨some "An abstract text", some 5, some "pid"⟩ :=
      (Response.ok.inj h).symm
    rw [hp]
    simp

theorem C3_tier_exclusivity_witness :
    netDemo.wf ∧ doiPaper.abstract = none
    ∧ (enrich_paper netDemo "cvpr" doiPaper).abstract_source
        = some "semantic_scholar"
    ∧ (((enrich_paper netDemo "cvpr" doiPaper).abstract ≠ none →
        (enrich_paper netDemo "cvpr" doiPaper).abstract_source
          = first_success_source netDemo "cvpr"
              (tier0_gate netDemo "cvpr" doiPaper))
      ∧ (∀ x : Paper, truthyS x.abstract = true →
          tier0_gate netDemo "cvpr" x = x ∧ tier1_step netDemo "cvpr" x = x
          ∧ tier2_pstep netDemo x = x ∧ tier3_step netDemo x = x
          ∧ tier4_step netDemo x = x ∧ tier5_gate netDemo "cvpr" x = x)) :=
  ⟨netDemo_wf, rfl, by decide,
    C3_tier_exclusivity netDemo "cvpr" doiPaper netDemo_wf rfl⟩

/-! ### Claim C6: inverted-index reconstruction -/

theorem word_positions_eq_flatMap (l : List (String × List Nat)) :
    word_positions l
      = l.flatMap (fun pr => pr.2.map (fun pos => (pos, pr.1))) := by
  induction l with
  | nil => rfl
  | cons hd tl ih =>
    cases hd with
    | mk w ps => simp [word_positions, ih]

theorem insertByPos_perm (x : Nat × String) (l : List (Nat × String)) :
    (insertByPos x l).Perm (x :: l) := by
  induction l with
  | nil => exact List.Perm.refl _
  | cons y ys ih =>
    unfold insertByPos
    by_cases h : x.1 ≤ y.1
    · rw [if_pos h]
    · rw [if_neg h]
      exact (List.Perm.cons y ih).trans (List.Perm.swap x y ys)

theorem sortByPos_perm (l : List (Nat × String)) :
    (sortByPos l).Perm l := by
  induction l with
  | nil => exact List.Perm.refl _
  | cons x xs ih =>
    exact (insertByPos_perm x (sortByPos xs)).trans (List.Perm.cons x ih)

theorem insertByPos_sorted (x : Nat × String) {l : List (Nat × String)}
    (h : List.Pairwise (fun a b => a.1 ≤ b.1) l) :
    List.Pairwise (fun a b => a.1 ≤ b.1) (insertByPos x l) := by
  induction l with
  | nil => simp [insertByPos]
  | cons y ys ih =>
    rw [List.pairwise_cons] at h
    obtain ⟨hy, hys⟩ := h
    unfold insertByPos
    by_cases hxy : x.1 ≤ y.1
    · rw [if_pos hxy]
      rw [List.pairwise_cons]
      refine ⟨?_, List.pairwise_cons.mpr ⟨hy, hys⟩⟩
      intro b hb
      rw [List.mem_cons] at hb
      rcases hb with hb | hb
      · rw [hb]; exact hxy
      · exact Nat.le_trans hxy (hy b hb)
    · rw [if_neg hxy]
      rw [List.pairwise_cons]
      constructor
      · intro b hb
        have hb2 := (insertByPos_perm x ys).mem_iff.mp hb
        rw [List.mem_cons] at hb2
        rcases hb2 with hb2 | hb2
        · rw [hb2]; exact Nat.le_of_not_le hxy
        · exact hy b hb2
      · exact ih hys

theorem sortByPos_sorted (l : List (Nat × String)) :
    List.Pairwise (fun a b => a.1 ≤ b.1) (sortByPos l) := by
  induction l with
  | nil => simp [sortByPos]
  | cons x xs ih => exact insertByPos_sorted x ih

/-- The token positions mentioned by an inverted index, with multiplicity. -/
def index_positions (idx : List (String × List Nat)) : List Nat :=
  (word_positions idx).map Prod.fst

theorem sortByPos_strict {l : List (Nat × String)}
    (hnd : (l.map Prod.fst).Nodup) :
    List.Pairwise (fun a b : Nat × String => a.1 < b.1) (sortByPos l) := by
  have hnd2 : ((sortByPos l).map Prod.fst).Nodup :=
    (((sortByPos_perm l).map Prod.fst).nodup_iff).mpr hnd
  have hne : List.Pairwise (fun a b : Nat × String => a.1 ≠ b.1)
      (sortByPos l) := List.pairwise_map.mp hnd2
  exact ((sortByPos_sorted l).and hne).imp
    (fun hab => Nat.lt_of_le_of_ne hab.1 hab.2)

/-- C6: reconstruction sorts all (position, word) pairs by position and joins
with single spaces; for a valid inverted index (no position occupied twice)
the result does not depend on the dict's key iteration order, and the
three-word example reconstructs to exactly "deep learning models" in any
order. -/
theorem C6_inverted_index_reconstruction :
    (∀ idx1 idx2 : List (String × List Nat), idx1.Perm idx2 →
      (index_positions idx1).Nodup →
      reconstruct_abstract_from_inverted_index idx1
        = reconstruct_abstract_from_inverted_index idx2)
    ∧ reconstruct_abstract_from_inverted_index
        [("deep", [0]), ("learning", [1]), ("models", [2])]
        = some "deep learning models"
    ∧ reconstruct_abstract_from_inverted_index
        [("models", [2]), ("deep", [0]), ("learning", [1])]
        = some "deep learning models" := by
  refine ⟨?_, by decide, by decide⟩
  intro idx1 idx2 hperm hnd
  unfold reconstruct_abstract_from_inverted_index
  by_cases h1 : idx1 = []
  · subst h1
    have h2 : [] = idx2 := hperm.nil_eq
    rw [← h2]
  · have h2 : idx2 ≠ [] := fun he => h1 (by rw [he] at hperm; exact
      hperm.eq_nil)
    rw [if_neg h1, if_neg h2]
    have hwp : (word_positions idx1).Perm (word_positions idx2) := by
      rw [word_positions_eq_flatMap, word_positions_eq_flatMap]
      exact List.Perm.flatMap_right _ hperm
    have hsort : (sortByPos (word_positions idx1)).Perm
        (sortByPos (word_positions idx2)) :=
      (sortByPos_perm _).trans (hwp.trans (sortByPos_perm _).symm)
    have hnd2 : (index_positions idx2).Nodup := by
      unfold index_positions at hnd ⊢
      exact ((hwp.map Prod.fst).nodup_iff).mp hnd
    have hp1 := @sortByPos_strict (word_positions idx1) hnd
    have hp2 := @sortByPos_strict (word_positions idx2) hnd2
    haveI : IsAntisymm (Nat × String) (fun a b => a.1 < b.1) :=
      ⟨fun a b hab hba => absurd hba (Nat.lt_asymm hab)⟩
    have heq : sortByPos (word_positions idx1)
        = sortByPos (word_positions idx2) :=
      List.eq_of_perm_of_sorted hsort hp1 hp2
    rw [heq]

theorem C6_inverted_index_reconstruction_witness :
    ([("deep", [0]), ("learning", [1]), ("models", [2])].Perm
      [("models", [2]), ("deep", [0]), ("learning", [1])])
    ∧ (index_positions
        [("deep", [0]), ("learning", [1]), ("models", [2])]).Nodup
    ∧ reconstruct_abstract_from_inverted_index
        [("deep", [0]), ("learning", [1]), ("models", [2])]
      = reconstruct_abstract_from_inverted_index
        [("models", [2]), ("deep", [0]), ("learning", [1])] :=
  ⟨by decide, by decide,
    C6_inverted_index_reconstruction.1
      [("deep", [0]), ("learning", [1]), ("models", [2])]
      [("models", [2]), ("deep", [0]), ("learning", [1])]
      (by decide) (by decide)⟩

/-! ### Claim C7: hash extraction from proceedings URLs -/

theorem matchPat1At_none_of {l : List Char}
    (h : hashMarker.isPrefixOf l = false) : matchPat1At l = none := by
  unfold matchPat1At
  rw [h]
  rfl

theorem matchPat2At_none_of {l : List Char}
    (h : hashMarker.isPrefixOf l = false) : matchPat2At l = none := by
  unfold matchPat2At
  rw [h]
  rfl

theorem searchPat1_append (pre suf : List Char)
    (H : ∀ i, i < pre.length →
      hashMarker.isPrefixOf ((pre ++ suf).drop i) = false) :
    searchPat1 (pre ++ suf) = searchPat1 suf := by
  induction pre with
  | nil => rfl
  | cons c pre ih =>
    have h0 : hashMarker.isPrefixOf ((c :: pre) ++ suf) = false := by
      have := H 0 (by simp)
      simpa using this
    have hm : matchPat1At ((c :: pre) ++ suf) = none := matchPat1At_none_of h0
    rw [List.cons_append]
    conv_lhs => rw [searchPat1]
    rw [List.cons_append] at hm
    rw [hm]
    exact ih (fun i hi => by
      have := H (i + 1) (by simpa using Nat.succ_lt_succ hi)
      simpa [List.drop_succ_cons] using this)

theorem searchPat2_append (pre suf : List Char)
    (H : ∀ i, i < pre.length →
      hashMarker.isPrefixOf ((pre ++ suf).drop i) = false) :
    searchPat2 (pre ++ suf) = searchPat2 suf := by
  induction pre with
  | nil => rfl
  | cons c pre ih =>
    have h0 : hashMarker.isPrefixOf ((c :: pre) ++ suf) = false := by
      have := H 0 (by simp)
      simpa using this
    have hm : matchPat2At ((c :: pre) ++ suf) = none := matchPat2At_none_of h0
    rw [List.cons_append]
    conv_lhs => rw [searchPat2]
    rw [List.cons_append] at hm
    rw [hm]
    exact ih (fun i hi => by
      have := H (i + 1) (by simpa using Nat.succ_lt_succ hi)
      simpa [List.drop_succ_cons] using this)

theorem searchPat1_none (l : List Char)
    (H : ∀ i, i < l.length →
      hashMarker.isPrefixOf (l.drop i) = false) :
    searchPat1 l = none := by
  induction l with
  | nil => rfl
  | cons c rest ih =>
    have h0 : hashMarker.isPrefixOf (c :: rest) = false := by
      have := H 0 (by simp)
      simpa using this
    have hm : matchPat1At (c :: rest) = none := matchPat1At_none_of h0
    conv_lhs => rw [searchPat1]
    rw [hm]
    exact ih (fun i hi => by
      have := H (i + 1) (by simpa using Nat.succ_lt_succ hi)
      simpa [List.drop_succ_cons] using this)

theorem searchPat2_none (l : List Char)
    (H : ∀ i, i < l.length →
      hashMarker.isPrefixOf (l.drop i) = false) :
    searchPat2 l = none := by
  induction l with
  | nil => rfl
  | cons c rest ih =>
    have h0 : hashMarker.isPrefixOf (c :: rest) = false := by
      have := H 0 (by simp)
      simpa using this
    have hm : matchPat2At (c :: rest) = none := matchPat2At_none_of h0
    conv_lhs => rw [searchPat2]
    rw [hm]
    exact ih (fun i hi => by
      have := H (i + 1) (by simpa using Nat.succ_lt_succ hi)
      simpa [List.drop_succ_cons] using this)

/-- The example suffix with an explicit track suffix. -/
def suffixConf : List Char :=
  "/hash/002262941c9edfd472a79298b2ac5e17-Abstract-Conference.html".data

/-- The example suffix without a track suffix. -/
def suffixPlain : List Char :=
  "/hash/002262941c9edfd472a79298b2ac5e17-Abstract.html".data

/-- C7: any URL whose only `/hash/` occurrence is the trailing
`/hash/002262941c9edfd472a79298b2ac5e17-Abstract-Conference.html` extracts
to that hash with track "Conference"; with the track-less
`-Abstract.html` suffix the first pattern fails and the fallback supplies the
default track "Conference" for the same hash; a URL containing no `/hash/`
segment at all extracts to `(None, None)`. -/
theorem C7_hash_extraction :
    (∀ pre : List Char,
      (∀ i, i < pre.length →
        hashMarker.isPrefixOf ((pre ++ suffixConf).drop i) = false) →
      extract_hash_from_proceedings_url (String.mk (pre ++ suffixConf))
        = (some "002262941c9edfd472a79298b2ac5e17", some "Conference"))
    ∧ (∀ pre : List Char,
      (∀ i, i < pre.length →
        hashMarker.isPrefixOf ((pre ++ suffixPlain).drop i) = false) →
      extract_hash_from_proceedings_url (String.mk (pre ++ suffixPlain))
        = (some "002262941c9edfd472a79298b2ac5e17", some "Conference"))
    ∧ (∀ url : String,
      (∀ i, i < url.data.length →
        hashMarker.isPrefixOf (url.data.drop i) = false) →
      extract_hash_from_proceedings_url url = (none, none)) := by
  refine ⟨?_, ?_, ?_⟩
  · intro pre H
    unfold extract_hash_from_proceedings_url
    show (match searchPat1 (pre ++ suffixConf) with
      | some (h, t) => (some h, some t)
      | none =>
        match searchPat2 (pre ++ suffixConf) with
        | some h => (some h, some "Conference")
        | none => (none, none)) = _
    rw [searchPat1_append pre suffixConf H]
    have h1 : searchPat1 suffixConf
        = some ("002262941c9edfd472a79298b2ac5e17", "Conference") := by decide
    rw [h1]
  · intro pre H
    unfold extract_hash_from_proceedings_url
    show (match searchPat1 (pre ++ suffixPlain) with
      | some (h, t) => (some h, some t)
      | none =>
        match searchPat2 (pre ++ suffixPlain) with
        | some h => (some h, some "Conference")
        | none => (none, none)) = _
    rw [searchPat1_append pre suffixPlain H,
      searchPat2_append pre suffixPlain H]
    have h1 : searchPat1 suffixPlain = none := by decide
    have h2 : searchPat2 suffixPlain
        = some "002262941c9edfd472a79298b2ac5e17" := by decide
    rw [h1, h2]
  · intro url H
    unfold extract_hash_from_proceedings_url
    rw [searchPat1_none url.data H, searchPat2_none url.data H]

theorem C7_hash_extraction_witness :
    (∀ i, i < ("http://papers.nips.cc/paper_files/paper/2022".data).length →
      hashMarker.isPrefixOf
        (("http://papers.nips.cc/paper_files/paper/2022".data
          ++ suffixConf).drop i) = false)
    ∧ extract_hash_from_proceedings_url
        (String.mk ("http://papers.nips.cc/paper_files/paper/2022".data
          ++ suffixConf))
      = (some "002262941c9edfd472a79298b2ac5e17", some "Conference")
    ∧ extract_hash_from_proceedings_url
        (String.mk ("https://proceedings.neurips.cc/paper/2020".data
          ++ suffixPlain))
      = (some "002262941c9edfd472a79298b2ac5e17", some "Conference")
    ∧ extract_hash_from_proceedings_url "https://example.com/foo"
      = (none, none) :=
  ⟨by decide,
    C7_hash_extraction.1 "http://papers.nips.cc/paper_files/paper/2022".data
      (by decide),
    C7_hash_extraction.2.1 "https://proceedings.neurips.cc/paper/2020".data
      (by decide),
    C7_hash_extraction.2.2 "https://example.com/foo" (by decide)⟩

/-! ### Claim C8: batch DOI filter construction -/

def doiPaperA : Paper := { basePaper with doi := some "10.1/a" }

def doiPaperB : Paper := { basePaper with doi := some "10.1/B" }

/-- C8: every key entering the OpenAlex batch filter is a paper's DOI with
the resolver prefix removed, whitespace stripped and letters lowercased (and
is non-empty); for the input DOIs "10.1/a" and "10.1/B" the batch keys are
exactly "10.1/a" and "10.1/b", joined as "10.1/a|10.1/b". -/
theorem C8_batch_doi_normalization :
    (∀ (ps : List Paper) (d : String), d ∈ extract_dois ps →
      ∃ p, p ∈ ps ∧ d = normalize_doi p.doi ∧ d ≠ "")
    ∧ extract_dois [doiPaperA, doiPaperB] = ["10.1/a", "10.1/b"]
    ∧ String.intercalate "|" (extract_dois [doiPaperA, doiPaperB])
      = "10.1/a|10.1/b" := by
  refine ⟨?_, by decide, by decide⟩
  intro ps d hd
  unfold extract_dois at hd
  rw [List.mem_filterMap] at hd
  obtain ⟨p, hp, hok⟩ := hd
  by_cases hz : (normalize_doi p.doi != "") = true
  · rw [if_pos hz] at hok
    have hdz : d = normalize_doi p.doi := (Option.some.inj hok).symm
    refine ⟨p, hp, hdz, ?_⟩
    rw [hdz]
    simpa using hz
  · rw [if_neg hz] at hok
    exact absurd hok (by simp)

theorem C8_batch_doi_normalization_witness :
    ("10.1/a" ∈ extract_dois [doiPaperA])
    ∧ ∃ p, p ∈ [doiPaperA] ∧ "10.1/a" = normalize_doi p.doi
        ∧ "10.1/a" ≠ "" :=
  ⟨by decide, C8_batch_doi_normalization.1 [doiPaperA] "10.1/a" (by decide)⟩

/-! ### Claim C10: the proceedings client ignores its track parameter -/

def netNeurips : Net :=
  { netDemo with neuripsPage := fun _ => Response.ok (some "A") }

/-- C10: `fetch_neurips_proceedings_abstract` never reads `track`: any two
track values (including None) give identical results; the request URL is
always `{base}/paper/{year}/hash/{hash}-Abstract.html` (no track suffix); and
whenever an abstract is returned the citation-count component is None and the
source id is that URL. -/
theorem C10_neurips_track_ignored :
    (∀ (net : Net) (year : Int) (ph : String) (t1 t2 : Option String),
      fetch_neurips_proceedings_abstract net year ph t1
        = fetch_neurips_proceedings_abstract net year ph t2)
    ∧ (∀ (net : Net) (year : Int) (ph : String) (t : Option String)
        (a : String) (cc : Option Int) (sid : Option String),
      fetch_neurips_proceedings_abstract net year ph t = (some a, cc, sid) →
      cc = none ∧ sid = some (neurips_url year ph))
    ∧ neurips_url 2022 "002262941c9edfd472a79298b2ac5e17"
      = "https://proceedings.nips.cc/paper/2022/hash/002262941c9edfd472a79298b2ac5e17-Abstract.html"
    := by
  refine ⟨fun net year ph t1 t2 => rfl, ?_, by decide⟩
  intro net year ph t a cc sid heq
  unfold fetch_neurips_proceedings_abstract at heq
  by_cases h0 : (ph == "") = true
  · rw [if_pos h0] at heq
    exact absurd heq (by simp)
  · rw [if_neg h0] at heq
    dsimp only at heq
    cases hr : net.neuripsPage (neurips_url year ph) with
    | ok payload =>
      rw [hr] at heq
      dsimp only at heq
      by_cases hp2 : truthyS payload = true
      · rw [if_pos hp2] at heq
        rw [Prod.mk.injEq, Prod.mk.injEq] at heq
        exact ⟨heq.2.1.symm, heq.2.2.symm⟩
      · rw [if_neg hp2] at heq
        exact absurd heq (by simp)
    | httpError s =>
      rw [hr] at heq
      exact absurd heq (by simp)
    | netError =>
      rw [hr] at heq
      exact absurd heq (by simp)

theorem C10_neurips_track_ignored_witness :
    fetch_neurips_proceedings_abstract netNeurips 2020 "abc" none
      = fetch_neurips_proceedings_abstract netNeurips 2020 "abc"
          (some "Datasets_and_Benchmarks")
    ∧ ((none : Option Int) = none
        ∧ (some (neurips_url 2020 "abc") : Option String)
            = some (neurips_url 2020 "abc")) :=
  ⟨C10_neurips_track_ignored.1 netNeurips 2020 "abc" none
      (some "Datasets_and_Benchmarks"),
    C10_neurips_track_ignored.2.1 netNeurips 2020 "abc" none "A" none
      (some (neurips_url 2020 "abc")) (by decide)⟩

/-! ### Claim C4: not-found versus unavailable -/

/-- A `Net` on which every request times out. -/
def netTimeout : Net where
  openreviewSearchNotes := fun _ _ _ => Response.netError
  openreviewNotes := fun _ _ => Response.netError
  openalexWork := fun _ => none
  openalexTitleSearch := fun _ => Response.netError
  semanticScholar := fun _ => Response.netError
  neuripsPage := fun _ => Response.netError

/-- C4 counterexample: a timeout in the Semantic Scholar client produces the
very same fully-null triple as an HTTP 404 — the code catches the exception,
logs it, and returns `(None, None, None)`; nothing distinguishes "source
unavailable" from "not found" for the caller, and no retry happens (the
function issues exactly one request per call). -/
theorem C4_counterexample :
    fetch_abstract_semantic_scholar netTimeout "10.1/x" = (none, none, none)
    ∧ fetch_abstract_semantic_scholar netTimeout "10.1/x"
      = fetch_abstract_semantic_scholar netNotFound "10.1/x" := by
  exact ⟨by decide, by decide⟩

/-- C4 (amended): an HTTP 404 yields the fully-null triple with no retry —
and so does every other HTTP error and every network/timeout error: they are
caught, logged and coerced to the same `(None, None, None)`, with no distinct
error condition and no retry.  In the OpenAlex batch fetch, a batch whose
request fails is skipped with no retry, leaving its papers unenriched; no
error propagates to the caller. -/
theorem C4_amended_error_handling :
    (∀ (net : Net) (d : String),
      net.semanticScholar d = Response.httpError 404 →
      fetch_abstract_semantic_scholar net d = (none, none, none))
    ∧ (∀ (net : Net) (d : String),
      net.semanticScholar d = Response.netError →
      fetch_abstract_semantic_scholar net d = (none, none, none))
    ∧ (∀ (net : Net) (d : String) (s : Nat),
      net.semanticScholar d = Response.httpError s →
      fetch_abstract_semantic_scholar net d = (none, none, none))
    ∧ (∀ (resp : List String → Response (List (String × OpenAlexWork)))
        (ps : List Paper), (∀ b, resp b = Response.netError) →
      fetch_abstracts_openalex resp ps = []) := by
  have hss : ∀ (net : Net) (d : String) (r : Response SSPayload),
      net.semanticScholar d = r →
      (∀ pl, r ≠ Response.ok pl) →
      fetch_abstract_semantic_scholar net d = (none, none, none) := by
    intro net d r heq hok
    unfold fetch_abstract_semantic_scholar
    by_cases h0 : (d == "") = true
    · rw [if_pos h0]
    · rw [if_neg h0, heq]
      cases r with
      | ok pl => exact absurd rfl (hok pl)
      | httpError s =>
        cases s with
        | zero => rfl
        | succ n => split <;> simp_all
      | netError => rfl
  refine ⟨fun net d h => hss net d _ h (by intro pl hc; cases hc),
    fun net d h => hss net d _ h (by intro pl hc; cases hc),
    fun net d s h => hss net d _ h (by intro pl hc; cases hc), ?_⟩
  intro resp ps hresp
  unfold fetch_abstracts_openalex
  generalize batchesOf (extract_dois ps) = bs
  induction bs with
  | nil => rfl
  | cons b bs ih =>
    rw [List.foldl_cons, hresp b]
    exact ih

theorem C4_amended_error_handling_witness :
    fetch_abstract_semantic_scholar netNotFound "10.1/a" = (none, none, none)
    ∧ fetch_abstract_semantic_scholar netTimeout "10.1/a"
        = (none, none, none)
    ∧ fetch_abstracts_openalex (fun _ => Response.netError) [doiPaperA]
        = [] :=
  ⟨C4_amended_error_handling.1 netNotFound "10.1/a" rfl,
    C4_amended_error_handling.2.1 netTimeout "10.1/a" rfl,
    C4_amended_error_handling.2.2.2 (fun _ => Response.netError) [doiPaperA]
      (fun _ => rfl)⟩
